import Mathlib

/-!
Verification of the hockey fixture pipeline (scripts/*.py) against its
natural-language specification.  Each Python function that a claim touches is
shallowly embedded as an executable Lean definition; dates and times are
modelled as day / second counts obtained by faithful re-implementations of the
`strptime` patterns the scripts use.  Text is modelled as `String` / `List
Char`; CSV rows as structures whose fields are the columns the scripts read.
-/

namespace Hockey

/-! ## Basic character and string utilities

Python semantics that the scripts rely on:
`str.strip` (whitespace trim), substring containment (`in`), `str.find`,
code-point lexicographic string comparison, `str.lower`.
Whitespace is modelled by the ASCII white characters Python's `\s` and
`str.strip` treat as blank; all text in the repository's data files is ASCII
in the relevant positions.
-/

/-- ASCII whitespace, as matched by Python's `\s` and stripped by `str.strip`. -/
def isWs (c : Char) : Bool :=
  c = ' ' || c = '\t' || c = '\n' || c = '\r' || c = '\x0b' || c = '\x0c'

/-- Drop trailing characters satisfying `p` (helper for `stripL`). -/
def dropTrailing (p : Char → Bool) (l : List Char) : List Char :=
  (l.reverse.dropWhile p).reverse

/-- Python `str.strip()` on a character list. -/
def stripL (l : List Char) : List Char :=
  dropTrailing isWs (l.dropWhile isWs)

/-- Python `str.strip()` on a `String`. -/
def pyStrip (s : String) : String :=
  String.mk (stripL s.data)

/-- Is `pat` a prefix of `l`? (decidable, used by the find/contains helpers). -/
def isPrefixL (pat l : List Char) : Bool :=
  pat.isPrefixOf l

/-- First index `≥ 0` at which `pat` occurs in `l`; Python `str.find` (as an
`Option` instead of `-1`). -/
def findSubAux (pat : List Char) : List Char → Nat → Option Nat
  | [], i => if isPrefixL pat [] then some i else none
  | c :: rest, i =>
    if isPrefixL pat (c :: rest) then some i else findSubAux pat rest (i + 1)

/-- Python `text.find(pat)` (`none` for `-1`). -/
def findSub (pat text : List Char) : Option Nat :=
  findSubAux pat text 0

/-- Python `text.find(pat, start)`. -/
def findSubFrom (pat text : List Char) (start : Nat) : Option Nat :=
  (findSub pat (text.drop start)).map (· + start)

/-- Python `pat in text` for character lists. -/
def containsL (pat text : List Char) : Bool :=
  (findSub pat text).isSome

/-- Python `sub in s` for strings. -/
def pyContains (sub s : String) : Bool :=
  containsL sub.data s.data

/-- Python `str.lower()` (ASCII; all markers the scripts search for are ASCII). -/
def lowerL (l : List Char) : List Char :=
  l.map Char.toLower

/-- Code-point lexicographic strict order on character lists (Python `<`). -/
def ltCharsB : List Char → List Char → Bool
  | [], [] => false
  | [], _ :: _ => true
  | _ :: _, [] => false
  | a :: as', b :: bs' =>
    if a = b then ltCharsB as' bs' else decide (a < b)

/-- Python `a <= b` on strings (code-point lexicographic). -/
def strLeB (a b : String) : Bool :=
  ! ltCharsB b.data a.data

/-! ## Dates and times

`datetime.strptime(s, "%Y-%m-%d")` in CPython matches the regular expression
`\d\d\d\d` for `%Y`, `1[0-2]|0[1-9]|[1-9]` for `%m`, `3[01]|[12]\d|0[1-9]|[1-9]`
for `%d` (the whole string must be consumed), then validates the civil date
(`datetime` construction).  `%H` matches `2[0-3]|[0-1]\d|\d`, `%M` matches
`[0-5]\d|\d`, and a whitespace character in the format matches one or more
whitespace characters.  Because each two-digit branch is followed by a literal
that can never be a digit, the alternations are deterministic: try the
two-digit form, else the one-digit form.  Parsed dates are represented as a
day count (`daysFromCivil`), datetimes as minutes or seconds derived from it,
so that `datetime` comparison and `timedelta` arithmetic become integer
comparison and arithmetic.
-/

def digitVal (c : Char) : Nat := c.toNat - 48

/-- Days-in-month with Gregorian leap years, as validated by `datetime`. -/
def daysInMonth (y m : Nat) : Nat :=
  if m = 2 then (if (y % 4 = 0 && y % 100 ≠ 0) || y % 400 = 0 then 29 else 28)
  else if m = 4 || m = 6 || m = 9 || m = 11 then 30
  else 31

/-- Day number of a civil date (standard days-from-civil formula, total order
and day arithmetic agree with `datetime.date`). Requires `1 ≤ y`. -/
def daysFromCivil (y m d : Nat) : Nat :=
  let yAdj : Nat := if 2 < m then y else y - 1
  let mAdj : Nat := if 2 < m then m - 3 else m + 9
  let era : Nat := yAdj / 400
  let yoe : Nat := yAdj % 400
  let doy : Nat := (153 * mAdj + 2) / 5 + d - 1
  let doe : Nat := yoe * 365 + yoe / 4 - yoe / 100 + doy
  era * 146097 + doe

/-- Parse a month at the head of `l` (`1[0-2]|0[1-9]|[1-9]`): two-digit value
`01`–`12` else a single digit `1`–`9`; returns the value and the rest. -/
def parseMonth2or1 : List Char → Option (Nat × List Char)
  | a :: b :: rest =>
    if a.isDigit && b.isDigit then
      let v := 10 * digitVal a + digitVal b
      if 1 ≤ v && v ≤ 12 then some (v, rest)
      else if 1 ≤ digitVal a && digitVal a ≤ 9 then some (digitVal a, b :: rest)
      else none
    else if a.isDigit && 1 ≤ digitVal a then some (digitVal a, b :: rest)
    else none
  | [a] => if a.isDigit && 1 ≤ digitVal a then some (digitVal a, []) else none
  | [] => none

/-- Parse a day number (`3[01]|[12]\d|0[1-9]|[1-9]`): two digits `01`–`31`
else one digit `1`–`9`. -/
def parseDay2or1 : List Char → Option (Nat × List Char)
  | a :: b :: rest =>
    if a.isDigit && b.isDigit then
      let v := 10 * digitVal a + digitVal b
      if 1 ≤ v && v ≤ 31 then some (v, rest)
      else if 1 ≤ digitVal a && digitVal a ≤ 9 then some (digitVal a, b :: rest)
      else none
    else if a.isDigit && 1 ≤ digitVal a then some (digitVal a, b :: rest)
    else none
  | [a] => if a.isDigit && 1 ≤ digitVal a then some (digitVal a, []) else none
  | [] => none

/-- Parse an hour (`2[0-3]|[0-1]\d|\d`): two digits `00`–`23` else one digit. -/
def parseHour2or1 : List Char → Option (Nat × List Char)
  | a :: b :: rest =>
    if a.isDigit && b.isDigit then
      let v := 10 * digitVal a + digitVal b
      if v ≤ 23 then some (v, rest) else some (digitVal a, b :: rest)
    else if a.isDigit then some (digitVal a, b :: rest)
    else none
  | [a] => if a.isDigit then some (digitVal a, []) else none
  | [] => none

/-- Parse a minute (`[0-5]\d|\d`): two digits `00`–`59` else one digit. -/
def parseMinute2or1 : List Char → Option (Nat × List Char)
  | a :: b :: rest =>
    if a.isDigit && b.isDigit then
      let v := 10 * digitVal a + digitVal b
      if v ≤ 59 then some (v, rest) else some (digitVal a, b :: rest)
    else if a.isDigit then some (digitVal a, b :: rest)
    else none
  | [a] => if a.isDigit then some (digitVal a, []) else none
  | [] => none

/-- Parse the date part `%Y-%m-%d` at the head of `l`; returns
`(y, m, d, rest)` without the final end-of-input check. -/
def parseYmd (l : List Char) : Option (Nat × Nat × Nat × List Char) :=
  match l with
  | y1 :: y2 :: y3 :: y4 :: '-' :: rest₁ =>
    if y1.isDigit && y2.isDigit && y3.isDigit && y4.isDigit then
      let y := 1000 * digitVal y1 + 100 * digitVal y2 + 10 * digitVal y3 + digitVal y4
      match parseMonth2or1 rest₁ with
      | some (m, rest₂) =>
        match rest₂ with
        | '-' :: rest₃ =>
          match parseDay2or1 rest₃ with
          | some (d, rest₄) =>
            if 1 ≤ y && d ≤ daysInMonth y m then some (y, m, d, rest₄) else none
          | none => none
        | _ => none
      | none => none
    else none
  | _ => none

/-- `datetime.strptime(s, "%Y-%m-%d")` as a day number (`none` = `ValueError`). -/
def parseDate (s : String) : Option Nat :=
  match parseYmd s.data with
  | some (y, m, d, []) => some (daysFromCivil y m d)
  | _ => none

/-- `datetime.strptime(s, "%Y-%m-%d %H:%M")` as minutes since day 0
(`none` = `ValueError`).  The format-string blank matches one or more
whitespace characters. -/
def parseDateTimeMin (s : String) : Option Nat :=
  match parseYmd s.data with
  | some (y, m, d, rest₁) =>
    let ws := rest₁.takeWhile isWs
    if ws.length = 0 then none
    else
      match parseHour2or1 (rest₁.dropWhile isWs) with
      | some (h, rest₂) =>
        match rest₂ with
        | ':' :: rest₃ =>
          match parseMinute2or1 rest₃ with
          | some (mi, []) => some (daysFromCivil y m d * 1440 + h * 60 + mi)
          | _ => none
        | _ => none
      | none => none
  | none => none

end Hockey

namespace Hockey

-- sanity examples (definitions are exercised again by claim witnesses)
example : parseDate ("2025-11-30") = some (daysFromCivil 2025 11 30) := by decide
example : parseDate ("2025-02-30") = none := by decide
example : parseDate ("2025-1-5") = some (daysFromCivil 2025 1 5) := by decide
example : parseDate ("2025-13-05") = none := by decide
example : parseDateTimeMin ("2025-11-30 19:05") =
    some (daysFromCivil 2025 11 30 * 1440 + 19 * 60 + 5) := by decide
example : parseDateTimeMin ("2025-11-30 25:05") = none := by decide
example : daysFromCivil 2025 11 25 - daysFromCivil 2025 11 20 = 5 := by decide
example : pyStrip ("  Final Score ") = ("Final Score") := by decide
example : pyContains ("Final Score") ("x Final Score|1-0") = true := by decide
example : findSub ("ab").data ("xxaby").data = some 2 := by decide

end Hockey

namespace Hockey

/-! ## Fixture rows

One `games.csv` row (`csv.DictReader` with `;`): the columns the verified
scripts read are named fields; the remaining enrichment columns
(`admin_host`, `iteration_fetched`, …, `Long`) are carried opaquely in `rest`
so that "preserved verbatim" is equality of the whole row value. -/
structure Row where
  date : String
  time : String
  series_name : String
  link_to_series : String
  home_team : String
  away_team : String
  result : String
  result_link : String
  arena : String
  status : String
  rest : List String
deriving DecidableEq

/-! ## Merge Engine (`scripts/mergeGames.py`) -/

/-- `game_key(row)` (mergeGames.py:28-37): the natural key
(date, time, series_name, link_to_series, home_team, away_team),
as a list of the six strings. -/
def gameKey (r : Row) : List String :=
  [r.date, r.time, r.series_name, r.link_to_series, r.home_team, r.away_team]

/-- Python `any(k)` on a key tuple: at least one component is non-empty. -/
def anyKey (k : List String) : Bool :=
  k.any (fun s => s ≠ "")

/-- Insertion-ordered dictionary keyed by natural keys (Python `dict`):
overwriting an existing key keeps its position, a new key is appended. -/
abbrev Index := List (List String × Row)

/-- `idx[k] = r` on a Python dict. -/
def insertIdx (idx : Index) (k : List String) (r : Row) : Index :=
  match idx with
  | [] => [(k, r)]
  | (k₀, r₀) :: tl => if k₀ = k then (k₀, r) :: tl else (k₀, r₀) :: insertIdx tl k r

/-- `k in idx` / `idx[k]` lookup. -/
def lookupIdx (idx : Index) (k : List String) : Option Row :=
  match idx with
  | [] => none
  | (k₀, r₀) :: tl => if k₀ = k then some r₀ else lookupIdx tl k

/-- Index construction (mergeGames.py:52-62): `for r in rows: k = game_key(r);
if any(k): index[k] = r`. -/
def buildIndexGo (acc : Index) : List Row → Index
  | [] => acc
  | r :: rs =>
    buildIndexGo (if anyKey (gameKey r) then insertIdx acc (gameKey r) r else acc) rs

def buildIndex (rows : List Row) : Index :=
  buildIndexGo [] rows

/-- Body of the first merge loop (mergeGames.py:67-84) for one `old_index`
entry: keep the old row when its date does not parse or is outside
`[base, base + window]`; inside the window, take the new-batch row with the
same key when there is one. -/
def mergeOldEntry (newIdx : Index) (base window : Int) (kr : List String × Row) : Row :=
  match parseDate kr.2.date with
  | none => kr.2
  | some d =>
    if base ≤ (d : Int) && (d : Int) ≤ base + window then
      match lookupIdx newIdx kr.1 with
      | some nr => nr
      | none => kr.2
    else kr.2

/-- Merge body (mergeGames.py:64-89), before sorting.  `base` is the parsed
`--date` day number, `window` the `--window` count (an `int`, so modelled as
`Int`).  First loop: every `old_index` entry through `mergeOldEntry`; second
loop: the `new_index` entries whose key is not in `old_index` are appended. -/
def mergeRows (base window : Int) (old new : List Row) : List Row :=
  (buildIndex old).map (mergeOldEntry (buildIndex new) base window) ++
    ((buildIndex new).filter
      (fun kr => (lookupIdx (buildIndex old) kr.1).isNone)).map (·.2)

/-- Sort key (mergeGames.py:92-104): parsed date with fallback 1900-01-01,
then time, series name, home team, away team; tuple comparison is
lexicographic with code-point string order. -/
def sortKeyLt (r s : Row) : Bool :=
  let dr : Nat := (parseDate r.date).getD (daysFromCivil 1900 1 1)
  let ds : Nat := (parseDate s.date).getD (daysFromCivil 1900 1 1)
  if dr ≠ ds then decide (dr < ds)
  else if r.time ≠ s.time then ltCharsB r.time.data s.time.data
  else if r.series_name ≠ s.series_name then ltCharsB r.series_name.data s.series_name.data
  else if r.home_team ≠ s.home_team then ltCharsB r.home_team.data s.home_team.data
  else ltCharsB r.away_team.data s.away_team.data

def sortKeyLe (r s : Row) : Bool :=
  ! sortKeyLt s r

/-- Stable insertion into a sorted list (kernel-computable model of Python
`sorted`, which is a stable sort: any two stable sorts under the same total
comparator produce the same list). -/
def insertLe {α : Type} (le : α → α → Bool) (a : α) : List α → List α
  | [] => [a]
  | b :: bs => if le a b then a :: b :: bs else b :: insertLe le a bs

/-- Stable sort by the boolean comparator `le` (insertion sort). -/
def sortByB {α : Type} (le : α → α → Bool) (l : List α) : List α :=
  l.foldr (insertLe le) []

theorem insertLe_perm {α : Type} (le : α → α → Bool) (a : α) (l : List α) :
    (insertLe le a l).Perm (a :: l) := by
  induction l with
  | nil => exact List.Perm.refl _
  | cons b bs ih =>
    rw [insertLe]
    by_cases h : le a b = true
    · rw [if_pos h]
    · rw [if_neg h]
      exact (ih.cons b).trans (List.Perm.swap a b bs)

theorem sortByB_perm {α : Type} (le : α → α → Bool) (l : List α) :
    (sortByB le l).Perm l := by
  induction l with
  | nil => exact List.Perm.refl _
  | cons a as ih =>
    exact (insertLe_perm le a (sortByB le as)).trans (ih.cons a)

/-- `main` of mergeGames.py (lines 46-114) modulo file I/O: the list of rows
written back to `games.csv`, in order (`sorted` is a stable sort). -/
def mergeMain (base window : Int) (old new : List Row) : List Row :=
  sortByB sortKeyLe (mergeRows base window old new)

/-! ### Association-list (Python dict) lemmas -/

def idxKeys (idx : Index) : List (List String) :=
  idx.map Prod.fst

/-- The invariant the merge indexes satisfy: distinct keys, and every stored
pair's key is the natural key of its row. -/
def GoodIdx (idx : Index) : Prop :=
  (idxKeys idx).Nodup ∧ ∀ p ∈ idx, p.1 = gameKey p.2

theorem mem_insertIdx {idx : Index} {k : List String} {r : Row} {p} :
    p ∈ insertIdx idx k r → p ∈ idx ∨ p = (k, r) := by
  induction idx with
  | nil => intro h; simp [insertIdx] at h; exact Or.inr h
  | cons hd tl ih =>
    intro h
    rw [insertIdx] at h
    by_cases hk : hd.1 = k
    · rw [if_pos hk] at h
      rcases List.mem_cons.1 h with h' | h'
      · right
        rw [h', hk]
      · exact Or.inl (List.mem_cons_of_mem _ h')
    · rw [if_neg hk] at h
      rcases List.mem_cons.1 h with h' | h'
      · exact Or.inl (h' ▸ List.mem_cons_self _ _)
      · rcases ih h' with h'' | h''
        · exact Or.inl (List.mem_cons_of_mem _ h'')
        · exact Or.inr h''

theorem idxKeys_cons (hd : List String × Row) (tl : Index) :
    idxKeys (hd :: tl) = hd.1 :: idxKeys tl := rfl

theorem idxKeys_insertIdx {idx : Index} {k : List String} {r : Row} {k'} :
    k' ∈ idxKeys (insertIdx idx k r) ↔ k' ∈ idxKeys idx ∨ k' = k := by
  induction idx with
  | nil => simp [insertIdx, idxKeys]
  | cons hd tl ih =>
    rw [insertIdx]
    by_cases hk : hd.1 = k
    · subst hk
      rw [if_pos rfl, idxKeys_cons, idxKeys_cons]
      simp only [List.mem_cons]
      tauto
    · rw [if_neg hk, idxKeys_cons, idxKeys_cons]
      simp only [List.mem_cons]
      rw [ih]
      tauto

theorem idxKeys_insertIdx_nodup {idx : Index} {k : List String} {r : Row}
    (h : (idxKeys idx).Nodup) : (idxKeys (insertIdx idx k r)).Nodup := by
  induction idx with
  | nil => simp [insertIdx, idxKeys]
  | cons hd tl ih =>
    rw [idxKeys_cons, List.nodup_cons] at h
    rw [insertIdx]
    by_cases hk : hd.1 = k
    · rw [if_pos hk, idxKeys_cons, List.nodup_cons]
      exact h
    · rw [if_neg hk, idxKeys_cons, List.nodup_cons]
      refine ⟨?_, ih h.2⟩
      intro hmem
      rcases idxKeys_insertIdx.1 hmem with hin | heq
      · exact h.1 hin
      · exact hk heq

theorem insertIdx_of_not_mem {idx : Index} {k : List String} {r : Row}
    (h : k ∉ idxKeys idx) : insertIdx idx k r = idx ++ [(k, r)] := by
  induction idx with
  | nil => simp [insertIdx]
  | cons hd tl ih =>
    rw [idxKeys_cons] at h
    rw [insertIdx]
    have hk : ¬ hd.1 = k := by
      intro he
      exact h (he ▸ List.mem_cons_self _ _)
    rw [if_neg hk]
    have htl : k ∉ idxKeys tl := fun hm => h (List.mem_cons_of_mem _ hm)
    rw [ih htl]
    simp

theorem lookupIdx_mem {idx : Index} {k : List String} {r : Row} :
    lookupIdx idx k = some r → (k, r) ∈ idx := by
  induction idx with
  | nil => intro h; simp [lookupIdx] at h
  | cons hd tl ih =>
    intro h
    rw [lookupIdx] at h
    by_cases hk : hd.1 = k
    · rw [if_pos hk] at h
      have h2 : hd.2 = r := Option.some.inj h
      have : hd = (k, r) := by
        obtain ⟨a, b⟩ := hd
        simp only at hk h2
        rw [hk, h2]
      exact this ▸ List.mem_cons_self _ _
    · rw [if_neg hk] at h
      exact List.mem_cons_of_mem _ (ih h)

theorem lookupIdx_isSome_of_mem {idx : Index} {k : List String}
    (h : k ∈ idxKeys idx) : (lookupIdx idx k).isSome := by
  induction idx with
  | nil => simp [idxKeys] at h
  | cons hd tl ih =>
    rw [lookupIdx]
    by_cases hk : hd.1 = k
    · rw [if_pos hk]
      rfl
    · rw [if_neg hk]
      apply ih
      rw [idxKeys_cons, List.mem_cons] at h
      rcases h with h | h
      · exact absurd h.symm hk
      · exact h

theorem goodIdx_insertIdx {idx : Index} {k : List String} {r : Row}
    (h : GoodIdx idx) (hk : k = gameKey r) : GoodIdx (insertIdx idx k r) := by
  refine ⟨idxKeys_insertIdx_nodup h.1, ?_⟩
  intro p hp
  rcases mem_insertIdx hp with h' | h'
  · exact h.2 p h'
  · rw [h']
    exact hk

theorem goodIdx_buildIndexGo {rows : List Row} {acc : Index}
    (h : GoodIdx acc) : GoodIdx (buildIndexGo acc rows) := by
  induction rows generalizing acc with
  | nil => exact h
  | cons r rs ih =>
    rw [buildIndexGo]
    by_cases hk : anyKey (gameKey r) = true
    · rw [if_pos hk]
      exact ih (goodIdx_insertIdx h rfl)
    · rw [if_neg hk]
      exact ih h

theorem goodIdx_buildIndex (rows : List Row) : GoodIdx (buildIndex rows) :=
  goodIdx_buildIndexGo ⟨List.nodup_nil, by intro p hp; simp at hp⟩

theorem buildIndexGo_val_mem {rows : List Row} {acc : Index} {p}
    (h : p ∈ buildIndexGo acc rows) : p ∈ acc ∨ p.2 ∈ rows := by
  induction rows generalizing acc with
  | nil => exact Or.inl h
  | cons r rs ih =>
    rw [buildIndexGo] at h
    by_cases hk : anyKey (gameKey r) = true
    · rw [if_pos hk] at h
      rcases ih h with h' | h'
      · rcases mem_insertIdx h' with h'' | h''
        · exact Or.inl h''
        · exact Or.inr (by rw [h'']; simp)
      · exact Or.inr (List.mem_cons_of_mem _ h')
    · rw [if_neg hk] at h
      rcases ih h with h' | h'
      · exact Or.inl h'
      · exact Or.inr (List.mem_cons_of_mem _ h')

theorem buildIndex_val_mem {rows : List Row} {p} (h : p ∈ buildIndex rows) :
    p.2 ∈ rows := by
  rcases buildIndexGo_val_mem h with h' | h'
  · simp at h'
  · exact h'

theorem buildIndexGo_eq_append {rows : List Row} {acc : Index}
    (hkeys : ∀ r ∈ rows, anyKey (gameKey r) = true)
    (hnd : rows.Pairwise (fun a b => gameKey a ≠ gameKey b))
    (hdisj : ∀ r ∈ rows, gameKey r ∉ idxKeys acc) :
    buildIndexGo acc rows = acc ++ rows.map (fun r => (gameKey r, r)) := by
  induction rows generalizing acc with
  | nil => simp [buildIndexGo]
  | cons r rs ih =>
    rw [buildIndexGo, if_pos (hkeys r (by simp)),
      insertIdx_of_not_mem (hdisj r (by simp))]
    rw [List.pairwise_cons] at hnd
    rw [ih (fun x hx => hkeys x (List.mem_cons_of_mem _ hx)) hnd.2]
    · simp
    · intro x hx hmem
      rw [idxKeys, List.map_append] at hmem
      rcases List.mem_append.1 hmem with h' | h'
      · exact hdisj x (List.mem_cons_of_mem _ hx) h'
      · simp at h'
        exact hnd.1 x hx h'.symm

theorem buildIndex_eq_map {rows : List Row}
    (hkeys : ∀ r ∈ rows, anyKey (gameKey r) = true)
    (hnd : rows.Pairwise (fun a b => gameKey a ≠ gameKey b)) :
    buildIndex rows = rows.map (fun r => (gameKey r, r)) := by
  rw [buildIndex, buildIndexGo_eq_append hkeys hnd (by intro r hr h; simp [idxKeys] at h)]
  simp

/-! ### Merge Engine properties -/

theorem gameKey_mergeOldEntry {newIdx : Index} (hgood : GoodIdx newIdx)
    {base window : Int} {kr : List String × Row} (hkr : kr.1 = gameKey kr.2) :
    gameKey (mergeOldEntry newIdx base window kr) = kr.1 := by
  cases hp : parseDate kr.2.date with
  | none => simp only [mergeOldEntry, hp]; exact hkr.symm
  | some d =>
    simp only [mergeOldEntry, hp]
    by_cases hc : (base ≤ (d : Int) && (d : Int) ≤ base + window) = true
    · rw [if_pos hc]
      cases hl : lookupIdx newIdx kr.1 with
      | none => exact hkr.symm
      | some nr => exact (hgood.2 (kr.1, nr) (lookupIdx_mem hl)).symm
    · rw [if_neg hc]
      exact hkr.symm

theorem mergeOldEntry_cases {newIdx : Index} {base window : Int}
    {kr : List String × Row} :
    mergeOldEntry newIdx base window kr = kr.2 ∨
      ∃ p ∈ newIdx, mergeOldEntry newIdx base window kr = p.2 := by
  cases hp : parseDate kr.2.date with
  | none =>
    left
    simp only [mergeOldEntry, hp]
  | some d =>
    by_cases hc : (base ≤ (d : Int) && (d : Int) ≤ base + window) = true
    · cases hl : lookupIdx newIdx kr.1 with
      | none =>
        left
        simp only [mergeOldEntry, hp, hl, if_pos hc]
      | some nr =>
        right
        exact ⟨(kr.1, nr), lookupIdx_mem hl,
          by simp only [mergeOldEntry, hp, hl, if_pos hc]⟩
    · left
      simp only [mergeOldEntry, hp, if_neg hc]

/-- C1.  After any merge, the list of rows written back to the Store contains
no two rows sharing the natural key (date, time, series name, series link,
home team, away team): the output of `mergeMain` is pairwise
distinct-keyed for every existing Store contents and every new batch. -/
theorem merge_no_duplicate_natural_keys (base window : Int) (old new : List Row) :
    (mergeMain base window old new).Pairwise (fun a b => gameKey a ≠ gameKey b) := by
  have hnd : ((mergeRows base window old new).map gameKey).Nodup := by
    obtain ⟨hnd₁, hmatch₁⟩ := goodIdx_buildIndex old
    obtain ⟨hnd₂, hmatch₂⟩ := goodIdx_buildIndex new
    rw [mergeRows, List.map_append, List.nodup_append, List.map_map, List.map_map]
    have he₁ : (buildIndex old).map
        (gameKey ∘ mergeOldEntry (buildIndex new) base window) = idxKeys (buildIndex old) := by
      apply List.map_congr_left
      intro kr hkr
      exact gameKey_mergeOldEntry ⟨hnd₂, hmatch₂⟩ (hmatch₁ kr hkr)
    have he₂ : ((buildIndex new).filter
          (fun kr => (lookupIdx (buildIndex old) kr.1).isNone)).map (gameKey ∘ (·.2)) =
        idxKeys ((buildIndex new).filter
          (fun kr => (lookupIdx (buildIndex old) kr.1).isNone)) := by
      apply List.map_congr_left
      intro kr hkr
      exact (hmatch₂ kr (List.mem_of_mem_filter hkr)).symm
    rw [he₁, he₂]
    refine ⟨hnd₁, ?_, ?_⟩
    · exact List.Nodup.sublist ((List.filter_sublist _).map Prod.fst) hnd₂
    · intro a ha₁ ha₂
      have hsome : (lookupIdx (buildIndex old) a).isSome :=
        lookupIdx_isSome_of_mem ha₁
      rcases List.mem_map.1 ha₂ with ⟨kr, hkr, hEq⟩
      obtain ⟨hmem, hnone⟩ := List.mem_filter.1 hkr
      rw [hEq] at hnone
      rw [Option.isNone_iff_eq_none] at hnone
      rw [hnone] at hsome
      simp at hsome
  have hp2 : (mergeRows base window old new).Pairwise
      (fun a b => gameKey a ≠ gameKey b) := List.pairwise_map.mp hnd
  rw [mergeMain]
  exact ((sortByB_perm sortKeyLe _).pairwise_iff (fun h => Ne.symm h)).mpr hp2

/-! ### Concrete rows for counterexamples and witnesses -/

/-- A Store row dated 2025-11-01. -/
def rowDup1 : Row :=
  { date := "2025-11-01", time := "19:00", series_name := "SHL",
    link_to_series := "/ScheduleAndResults/Overview/101",
    home_team := "AIK", away_team := "LHC", result := "", result_link := "",
    arena := "Arena1", status := "", rest := [] }

/-- Same natural key as `rowDup1`, different arena. -/
def rowDup2 : Row :=
  { rowDup1 with arena := "Arena2" }

/-- A new-batch row dated 2025-11-02 with a key of its own. -/
def rowNewOut : Row :=
  { date := "2025-11-02", time := "19:00", series_name := "SHL",
    link_to_series := "/ScheduleAndResults/Overview/101",
    home_team := "FBK", away_team := "MODO", result := "", result_link := "",
    arena := "Arena3", status := "", rest := [] }

/-- A row whose natural-key fields are all empty. -/
def rowEmptyKey : Row :=
  { date := "", time := "", series_name := "", link_to_series := "",
    home_team := "", away_team := "", result := "", result_link := "",
    arena := "ArenaE", status := "", rest := [] }

/-- Base date 2025-11-10 used by the merge counterexamples; with window 7 the
active window is [2025-11-10, 2025-11-17], so the rows above are outside it. -/
def baseC2 : Int :=
  (daysFromCivil 2025 11 10 : Int)

/-- C2 (counterexample).  With base 2025-11-10 and window 7, both
2025-11-01 and 2025-11-02 lie outside the window, yet: the Store row
`rowDup1` (whose key a later Store row duplicates) does not appear in the
merged output, and the new-batch row `rowNewOut`, dated outside the window and
not a Store row, is added.  This refutes "every Store row dated outside the
window appears verbatim and the merge adds and removes no row dated outside
the window" as literally stated. -/
theorem merge_outside_window_counterexample :
    rowDup1 ∉ mergeMain baseC2 7 [rowDup1, rowDup2] [rowNewOut] ∧
      rowNewOut ∈ mergeMain baseC2 7 [rowDup1, rowDup2] [rowNewOut] ∧
      rowNewOut ∉ ([rowDup1, rowDup2] : List Row) ∧
      parseDate rowDup1.date = some (daysFromCivil 2025 11 1) ∧
      parseDate rowNewOut.date = some (daysFromCivil 2025 11 2) ∧
      ¬(baseC2 ≤ (daysFromCivil 2025 11 1 : Int) ∧
        (daysFromCivil 2025 11 1 : Int) ≤ baseC2 + 7) ∧
      ¬(baseC2 ≤ (daysFromCivil 2025 11 2 : Int) ∧
        (daysFromCivil 2025 11 2 : Int) ≤ baseC2 + 7) := by
  decide

/-- C2 (amended).  If every Store row has a not-all-empty natural key and no
two Store rows share a natural key, then every Store row whose date parses to
a day outside `[base, base + window]` appears verbatim in the merged output,
and every merged row comes verbatim from the Store or from the new batch (so
no such Store row is removed or altered; new-batch rows dated outside the
window may still be added). -/
theorem merge_preserves_rows_outside_window (base window : Int) (old new : List Row)
    (hkeys : ∀ r ∈ old, anyKey (gameKey r) = true)
    (hnd : old.Pairwise (fun a b => gameKey a ≠ gameKey b)) :
    (∀ r ∈ old, ∀ d : Nat, parseDate r.date = some d →
        ¬(base ≤ (d : Int) ∧ (d : Int) ≤ base + window) →
        r ∈ mergeMain base window old new) ∧
      (∀ r ∈ mergeMain base window old new, r ∈ old ∨ r ∈ new) := by
  have hperm := sortByB_perm sortKeyLe (mergeRows base window old new)
  constructor
  · intro r hr d hd hout
    rw [mergeMain, hperm.mem_iff, mergeRows]
    apply List.mem_append_left
    have hidx : (gameKey r, r) ∈ buildIndex old := by
      rw [buildIndex_eq_map hkeys hnd]
      exact List.mem_map.2 ⟨r, hr, rfl⟩
    apply List.mem_map.2
    refine ⟨(gameKey r, r), hidx, ?_⟩
    simp only [mergeOldEntry, hd]
    have hcond : ¬(base ≤ (d : Int) && (d : Int) ≤ base + window) = true := by
      intro hc
      rw [Bool.and_eq_true, decide_eq_true_eq, decide_eq_true_eq] at hc
      exact hout hc
    rw [if_neg hcond]
  · intro r hr
    rw [mergeMain, hperm.mem_iff, mergeRows] at hr
    rcases List.mem_append.1 hr with h | h
    · rcases List.mem_map.1 h with ⟨kr, hkr, hEq⟩
      rcases @mergeOldEntry_cases (buildIndex new) base window kr
        with hcase | ⟨p, hp, hcase⟩
      · left
        rw [← hEq, hcase]
        exact buildIndex_val_mem hkr
      · right
        rw [← hEq, hcase]
        exact buildIndex_val_mem hp
    · rcases List.mem_map.1 h with ⟨kr, hkr, hEq⟩
      right
      rw [← hEq]
      exact buildIndex_val_mem (List.mem_of_mem_filter hkr)

/-- C2 witness: `rowDup1`, the only Store row, dated outside the window, is
preserved verbatim by a merge with a disjoint new batch. -/
theorem merge_preserves_rows_outside_window_witness :
    rowDup1 ∈ mergeMain baseC2 7 [rowDup1] [rowNewOut] :=
  (merge_preserves_rows_outside_window baseC2 7 [rowDup1] [rowNewOut]
      (by decide) (by decide)).1
    rowDup1 (by decide) (daysFromCivil 2025 11 1) (by decide) (by decide)

/-- C3 (counterexample).  Merging an empty batch into the Store
`[rowEmptyKey, rowDup1, rowDup2]` does not return a permutation of it: the
all-empty-key row is dropped by the index construction, and `rowDup1` is
overwritten by the later row with the same natural key, so the output has one
row while the Store had three. -/
theorem merge_empty_batch_counterexample :
    ¬ (mergeMain 0 7 [rowEmptyKey, rowDup1, rowDup2] []).Perm
        [rowEmptyKey, rowDup1, rowDup2] :=
  fun hperm => absurd hperm.length_eq (by decide)

/-- C3 (amended).  If every Store row has a not-all-empty natural key and no
two Store rows share a natural key, then merging an empty new batch yields a
permutation of the Store (only the sort order may change). -/
theorem merge_empty_batch_is_permutation (base window : Int) (old : List Row)
    (hkeys : ∀ r ∈ old, anyKey (gameKey r) = true)
    (hnd : old.Pairwise (fun a b => gameKey a ≠ gameKey b)) :
    (mergeMain base window old []).Perm old := by
  have hperm := sortByB_perm sortKeyLe (mergeRows base window old [])
  rw [mergeMain]
  refine hperm.trans ?_
  have hrows : mergeRows base window old [] = old := by
    rw [mergeRows]
    have hB : buildIndex ([] : List Row) = [] := rfl
    rw [hB]
    simp only [List.filter_nil, List.map_nil, List.append_nil]
    rw [buildIndex_eq_map hkeys hnd, List.map_map]
    have hpt : ∀ r ∈ old,
        (mergeOldEntry [] base window ∘ fun r => (gameKey r, r)) r = r := by
      intro r hr
      cases hp : parseDate r.date with
      | none => simp only [Function.comp, mergeOldEntry, hp]
      | some d => simp only [Function.comp, mergeOldEntry, hp, lookupIdx, ite_self]
    rw [List.map_congr_left hpt]
    exact List.map_id' old
  rw [hrows]

/-- C3 witness: a one-row Store with a nonempty key is returned unchanged (as
a permutation) by an empty-batch merge. -/
theorem merge_empty_batch_is_permutation_witness :
    (mergeMain 0 7 [rowDup1] []).Perm [rowDup1] :=
  merge_empty_batch_is_permutation 0 7 [rowDup1] (by decide) (by decide)

/-! ## Archive Manager (`scripts/archive_old_games.py`)

State: the contents of `data/games.csv` and of `data/oldGames.csv`, each
`none` when the file is missing.  `today` is the day number of
`datetime.utcnow().date()`; `expire_date = today - 5` days.  The run either
completes with a new state, or crashes (`none`): `merged.sort(key=parse_date)`
raises `TypeError` exactly when the merged archive has at least two rows and
some row's date does not parse (Python cannot order `None` against a date,
and every element of a list of length ≥ 2 takes part in a comparison). -/

/-- Archive dedup key (archive_old_games.py:61-68):
(date, home_team, away_team, series_name). -/
def archKey (r : Row) : List String :=
  [r.date, r.home_team, r.away_team, r.series_name]

/-- Ascending order on the archive sort key `parse_date(g.date)` (all dates
parse whenever the sort is reached without crashing, so the fallback value is
irrelevant). -/
def archLe (r s : Row) : Bool :=
  (parseDate r.date).getD 0 ≤ (parseDate s.date).getD 0

/-- Persisted state of the Archive Manager: Store rows and archive rows
(`none` = file missing). -/
structure ArchState where
  games : Option (List Row)
  old : Option (List Row)
deriving DecidableEq

/-- `main` of archive_old_games.py (lines 21-98): `none` models the sort
crash, `some` the resulting persisted state (unchanged on the no-op paths). -/
def archiveRun (today : Nat) (s : ArchState) : Option ArchState :=
  match s.games with
  | none => some s
  | some gs =>
    if gs = [] then some s
    else
      let expire := today - 5
      let rowsForExpire := gs.filter (fun g => parseDate g.date == some expire)
      if rowsForExpire = [] then some s
      else
        let existing := s.old.getD []
        let existingIds := existing.map archKey
        let newUnique := rowsForExpire.filter (fun r => !(existingIds.contains (archKey r)))
        let merged := existing ++ newUnique
        if 2 ≤ merged.length && merged.any (fun r => (parseDate r.date).isNone) then
          none
        else
          some { games := some (gs.filter (fun g => !(parseDate g.date == some expire))),
                 old := some (sortByB archLe merged) }

/-- C9.  Running the Archive Manager a second time with the same `today` is a
no-op: whenever the first run completes with state `s₁`, the second run
completes and returns `s₁` unchanged (the Store no longer holds any row dated
`expire_date`, so the second run takes the nothing-to-archive path). -/
theorem archive_second_run_noop (today : Nat) (s s₁ : ArchState)
    (h : archiveRun today s = some s₁) : archiveRun today s₁ = some s₁ := by
  cases hg : s.games with
  | none =>
    simp only [archiveRun, hg] at h
    obtain rfl : s = s₁ := Option.some.inj h
    simp only [archiveRun, hg]
  | some gs =>
    simp only [archiveRun, hg] at h
    by_cases hempty : gs = []
    · rw [if_pos hempty] at h
      obtain rfl : s = s₁ := Option.some.inj h
      simp only [archiveRun, hg]
      rw [if_pos hempty]
    · rw [if_neg hempty] at h
      by_cases hexp : gs.filter (fun g => parseDate g.date == some (today - 5)) = []
      · rw [if_pos hexp] at h
        obtain rfl : s = s₁ := Option.some.inj h
        simp only [archiveRun, hg]
        rw [if_neg hempty, if_pos hexp]
      · rw [if_neg hexp] at h
        set merged := (s.old.getD []) ++
            (gs.filter (fun g => parseDate g.date == some (today - 5))).filter
              (fun r => !(((s.old.getD []).map archKey).contains (archKey r))) with hmerged
        by_cases hcrash : (decide (2 ≤ merged.length) &&
            merged.any (fun r => (parseDate r.date).isNone)) = true
        · rw [if_pos hcrash] at h
          exact absurd h (by simp)
        · rw [if_neg hcrash] at h
          have hs₁ := (Option.some.inj h).symm
          have hgames : s₁.games =
              some (gs.filter (fun g => !(parseDate g.date == some (today - 5)))) := by
            rw [hs₁]
          simp only [archiveRun, hgames]
          by_cases hrem : gs.filter (fun g => !(parseDate g.date == some (today - 5))) = []
          · rw [if_pos hrem]
          · rw [if_neg hrem]
            have hff : (gs.filter (fun g => !(parseDate g.date == some (today - 5)))).filter
                (fun g => parseDate g.date == some (today - 5)) = [] := by
              rw [List.filter_filter]
              apply List.filter_eq_nil_iff.2
              intro a ha
              simp
            rw [hff, if_pos rfl]

/-- A Store row dated 2025-11-20, archivable when `today` is 2025-11-25. -/
def rowArch : Row :=
  { date := "2025-11-20", time := "18:00", series_name := "SHL",
    link_to_series := "/ScheduleAndResults/Overview/101",
    home_team := "AIK", away_team := "LHC", result := "3 - 2",
    result_link := "/Game/Events/5", arena := "ArenaA", status := "Final Score|",
    rest := [] }

/-- A Store row dated 2025-11-24, kept when `today` is 2025-11-25. -/
def rowKeep : Row :=
  { date := "2025-11-24", time := "19:00", series_name := "SHL",
    link_to_series := "/ScheduleAndResults/Overview/101",
    home_team := "FBK", away_team := "MODO", result := "", result_link := "",
    arena := "ArenaB", status := "", rest := [] }

/-- C9 witness: with `today` = 2025-11-25 the first run archives the
2025-11-20 row and the second run returns the first run's state unchanged. -/
theorem archive_second_run_noop_witness :
    archiveRun (daysFromCivil 2025 11 25)
        { games := some [rowArch, rowKeep], old := none } =
      some { games := some [rowKeep], old := some [rowArch] } ∧
    archiveRun (daysFromCivil 2025 11 25)
        { games := some [rowKeep], old := some [rowArch] } =
      some { games := some [rowKeep], old := some [rowArch] } :=
  ⟨by decide,
   archive_second_run_noop (daysFromCivil 2025 11 25)
     { games := some [rowArch, rowKeep], old := none }
     { games := some [rowKeep], old := some [rowArch] } (by decide)⟩

/-! ## Series Classifier (`scripts/updateSeriesFile.py`)

The module docstring (lines 4-24) documents the intended behaviour: for every
(link, name) series pair of the target date's games that is missing from
`series.csv`, probe the overview/live pages, classify
(`No` / `Yes` / `YesLight`), and append the new record, leaving existing
records untouched.  `detect_live_type` (lines 108-146) and
`write_series_file` implement pieces of this, but `main` (lines 203-258)
never calls either: it only collects today's series ids and rewrites
`data/series_live.csv` from scratch via `write_series_live_file`
(lines 191-201), which writes one row `sid;;No` per id — every previously
existing series-live entry is dropped, and every `last_polled` timestamp is
reset to empty. -/

/-- One `data/series.csv` record. -/
structure SeriesRow where
  serieLink : String
  serieName : String
  live : String
  doneToday : String
deriving DecidableEq

/-- One `data/series_live.csv` record (header
`series_id;last_polled;done_for_today`). -/
structure LiveFileRow where
  seriesId : String
  lastPolled : String
  doneForToday : String
deriving DecidableEq

/-- Persisted state touched by updateSeriesFile.py: `series.csv` rows and
`series_live.csv` rows (`none` = file missing). -/
structure USFState where
  seriesRows : List SeriesRow
  seriesLive : Option (List LiveFileRow)
deriving DecidableEq

/-- `ensure_absolute_url` (updateSeriesFile.py:89-96) with
`BASE_URL = "https://stats.swehockey.se"`. -/
def ensureAbsoluteUrl (link : String) : String :=
  if isPrefixL ("http://").data link.data || isPrefixL ("https://").data link.data then
    link
  else if isPrefixL ("/").data link.data then
    String.mk (("https://stats.swehockey.se").data ++ link.data)
  else
    String.mk (("https://stats.swehockey.se/").data ++ (link.data.dropWhile (· = '/')))

/-- `extract_series_id` (updateSeriesFile.py:46-53): `re.search(r"/(\d+)$")`,
i.e. the earliest `/` followed by a non-empty all-digit suffix reaching the
end of the string; returns those digits, else the empty string. -/
def extractSeriesIdFrom : List Char → String
  | [] => ""
  | c :: rest =>
    if c = '/' && rest ≠ [] && rest.all Char.isDigit then String.mk rest
    else extractSeriesIdFrom rest

def extractSeriesId (link : String) : String :=
  extractSeriesIdFrom link.data

/-- `write_series_live_file` (updateSeriesFile.py:191-201): the rows written —
one `sid;;No` row per id, sorted, duplicates kept. -/
def writeSeriesLiveRows (ids : List String) : List LiveFileRow :=
  (sortByB strLeB ids).map (fun sid => ⟨sid, "", "No"⟩)

/-- The (link → name) insertion-ordered dict of today's series
(updateSeriesFile.py:233-243). -/
def todaysSeriesGo (acc : List (String × String)) : List Row → List (String × String)
  | [] => acc
  | g :: gs =>
    let link := pyStrip g.link_to_series
    let name := pyStrip g.series_name
    if link = "" || name = "" then todaysSeriesGo acc gs
    else
      let full := ensureAbsoluteUrl link
      todaysSeriesGo (insertPair acc full name) gs
where
  insertPair (acc : List (String × String)) (k v : String) : List (String × String) :=
    match acc with
    | [] => [(k, v)]
    | (k₀, v₀) :: tl =>
      if k₀ = k then (k₀, v) :: tl else (k₀, v₀) :: insertPair tl k v

/-- `main` of updateSeriesFile.py (lines 203-258) as a state transition:
filter today's games; if none, do nothing; otherwise collect today's series,
load `series.csv` (unused!), extract the non-empty series ids, and overwrite
`series_live.csv` with fresh rows.  `series.csv` is never written. -/
def updateSeriesFileMain (targetDate : String) (games : List Row)
    (st : USFState) : USFState :=
  let todays := games.filter (fun g => g.date = targetDate)
  if todays = [] then st
  else
    let pairs := todaysSeriesGo [] todays
    let ids := (pairs.map Prod.fst).filterMap
      (fun full => if extractSeriesId full = "" then none else some (extractSeriesId full))
    { st with seriesLive := some (writeSeriesLiveRows ids) }

/-- A game on 2025-11-30 whose series (id 20000) is absent from the series
directory. -/
def rowNewSeries : Row :=
  { date := "2025-11-30", time := "19:00", series_name := "Division 1",
    link_to_series := "/ScheduleAndResults/Overview/20000",
    home_team := "Kiruna", away_team := "Boden", result := "", result_link := "",
    arena := "ArenaN", status := "", rest := [] }

/-- A pre-existing series-live entry with a recorded poll timestamp. -/
def liveRowOld : LiveFileRow :=
  ⟨"19863", "2025-11-20T12:00:00", "No"⟩

/-- C4 (code demonstration).  On a date with a game of a series absent from
`series.csv`, the classifier run leaves `series.csv` exactly as it was — no
directory record is created for the unseen (link, name) pair, contradicting
the documented classification behaviour. -/
theorem classifier_creates_no_record :
    (updateSeriesFileMain ("2025-11-30") [rowNewSeries]
        { seriesRows := [], seriesLive := none }).seriesRows = [] ∧
      (updateSeriesFileMain ("2025-11-30") [rowNewSeries]
        { seriesRows := [⟨"https://stats.swehockey.se/ScheduleAndResults/Overview/19863",
                          "SHL", "YesLight", "No"⟩],
          seriesLive := none }).seriesRows =
        [⟨"https://stats.swehockey.se/ScheduleAndResults/Overview/19863",
          "SHL", "YesLight", "No"⟩] := by
  constructor
  · decide
  · decide

/-- C5 (code demonstration).  Running the classifier step for a new date
erases the existing series-live entry `19863` (with its poll timestamp) and
replaces the file with a fresh row for today's series `20000` whose
`last_polled` is empty: entries are deleted and timestamps reset. -/
theorem series_live_entry_erased :
    (updateSeriesFileMain ("2025-11-30") [rowNewSeries]
        { seriesRows := [], seriesLive := some [liveRowOld] }).seriesLive =
      some [⟨"20000", "", "No"⟩] ∧
    liveRowOld ∉ ((updateSeriesFileMain ("2025-11-30") [rowNewSeries]
        { seriesRows := [], seriesLive := some [liveRowOld] }).seriesLive.getD []) := by
  constructor
  · decide
  · decide

/-! ## Lightweight poll driver (`scripts/runLightSeriesUpdates.py`)

Datetimes are modelled as seconds (`datetime` comparison and
`timedelta(minutes=k)` arithmetic become integer comparison and `60 * k`);
`datetime.fromtimestamp(ts)` maps a Unix timestamp to the same scale. -/

/-- `_has_final_score` (runLightSeriesUpdates.py:102-105). -/
def hasFinalScore (status : String) : Bool :=
  if status = "" then false else pyContains ("Final Score") status

/-- `_parse_start_time` (runLightSeriesUpdates.py:107-116): `None` for an
empty or `00:00` time, else `strptime(f"{date_str} {time_str}",
"%Y-%m-%d %H:%M")` — in seconds. -/
def parseStartTime (dateStr timeStr : String) : Option Int :=
  if timeStr = "" || timeStr = "00:00" then none
  else
    match parseDateTimeMin (dateStr ++ (" ") ++ timeStr) with
    | some m => some ((m : Int) * 60)
    | none => none

/-- `should_poll_match` (runLightSeriesUpdates.py:194-233); the three
keyword parameters are in minutes, `now` and `last_hash_ts` in seconds. -/
def shouldPollMatch (dateStr timeStr status : String) (lastHashTs : Option Int)
    (now inactivityMin startPollingMin maxMatchMin : Int) : Bool :=
  match parseStartTime dateStr timeStr with
  | none => false
  | some start =>
    if now < start - startPollingMin * 60 then false
    else if hasFinalScore status then false
    else if now < start + maxMatchMin * 60 then true
    else
      match lastHashTs with
      | none => false
      | some ts => if now - ts ≤ inactivityMin * 60 then true else false

/-- C7.  For a match with a valid scheduled start and non-terminal status:
`should_poll_match` is true at every instant from `S − startPollingMinutes`
up to (strictly before) `S + maxMatchMinutes`, and false at every instant
after `S + maxMatchMinutes` when the last snapshot-hash timestamp is absent
or lies more than `inactivityMinutes` in the past. -/
theorem should_poll_match_window (dateStr timeStr status : String)
    (lastHashTs : Option Int) (inact lead maxd start : Int)
    (hstart : parseStartTime dateStr timeStr = some start)
    (hterm : hasFinalScore status = false) :
    (∀ now : Int, start - lead * 60 ≤ now → now < start + maxd * 60 →
        shouldPollMatch dateStr timeStr status lastHashTs now inact lead maxd = true) ∧
      (∀ now : Int, start + maxd * 60 < now →
        (lastHashTs = none ∨ ∀ ts, lastHashTs = some ts → inact * 60 < now - ts) →
        shouldPollMatch dateStr timeStr status lastHashTs now inact lead maxd = false) := by
  constructor
  · intro now h1 h2
    simp only [shouldPollMatch, hstart, hterm]
    rw [if_neg (by omega : ¬ now < start - lead * 60)]
    simp only [Bool.false_eq_true, if_false]
    rw [if_pos h2]
  · intro now h1 h2
    simp only [shouldPollMatch, hstart, hterm]
    by_cases hlead : now < start - lead * 60
    · rw [if_pos hlead]
    · rw [if_neg hlead]
      simp only [Bool.false_eq_true, if_false]
      rw [if_neg (by omega : ¬ now < start + maxd * 60)]
      cases hl : lastHashTs with
      | none => rfl
      | some ts =>
        rcases h2 with h2 | h2
        · rw [hl] at h2
          exact absurd h2 (by simp)
        · have hts := h2 ts hl
          dsimp only
          rw [if_neg (by omega : ¬ now - ts ≤ inact * 60)]

/-- Scheduled start (in seconds) of a 2025-11-30 19:00 match, for the C7
witness. -/
def startW : Int :=
  ((daysFromCivil 2025 11 30 * 1440 + 19 * 60 : Nat) : Int) * 60

/-- C7 witness: with the default 30/210/45-minute parameters, a match with
valid start 2025-11-30 19:00 and empty status is polled one minute before
start, and not polled one minute past `S + maxMatchDuration` when no hash
timestamp exists. -/
theorem should_poll_match_window_witness :
    shouldPollMatch ("2025-11-30") ("19:00") ("") none (startW - 60) 45 30 210 = true ∧
      shouldPollMatch ("2025-11-30") ("19:00") ("") none (startW + 210 * 60 + 60) 45 30 210 = false :=
  ⟨(should_poll_match_window ("2025-11-30") ("19:00") ("") none 45 30 210 startW
      (by decide) (by decide)).1 (startW - 60) (by decide) (by decide),
   (should_poll_match_window ("2025-11-30") ("19:00") ("") none 45 30 210 startW
      (by decide) (by decide)).2 (startW + 210 * 60 + 60) (by decide) (Or.inl rfl)⟩

/-- One `series_live.csv` entry as loaded by `load_series_live`
(runLightSeriesUpdates.py:264-300): parsed `last_polled` (seconds) and
boolean `done_for_today`. -/
structure LSeries where
  seriesId : String
  lastPolled : Option Int
  doneForToday : Bool
deriving DecidableEq

/-- Series id of a `link_to_series` value
(runLightSeriesUpdates.py:598-599): `link.rstrip("/").split("/")[-1]`
when the link is non-empty, else the empty string. -/
def sidOfLink (link : String) : String :=
  if link = "" then ""
  else String.mk (((dropTrailing (· = '/') link.data).reverse.takeWhile (· ≠ '/')).reverse)

/-- "Finns någon aktiv match?" (runLightSeriesUpdates.py:595-612): some game
of the series has a valid parsed start not after `now` and is not at Final
Score. -/
def activeMatchExists (dateStr : String) (now : Int) (games : List Row)
    (sid : String) : Bool :=
  games.any (fun g =>
    sidOfLink g.link_to_series = sid &&
      match parseStartTime dateStr g.time with
      | none => false
      | some st => decide (st ≤ now) && !(hasFinalScore g.status))

/-- One iteration of the `run_light_updates` loop
(runLightSeriesUpdates.py:583-641) for one series: skip when done-for-today,
skip when `last_polled >= now`, skip when no active match; otherwise poll and
set `last_polled := now` unconditionally.  The boolean reports whether the
series was polled. -/
def processSeries (dateStr : String) (now : Int) (games : List Row)
    (s : LSeries) : LSeries × Bool :=
  if s.doneForToday then (s, false)
  else if (match s.lastPolled with
           | some lp => decide (now ≤ lp)
           | none => false) then (s, false)
  else if activeMatchExists dateStr now games s.seriesId then
    ({ s with lastPolled := some now }, true)
  else (s, false)

/-- The `run_light_updates` loop over the series map, in file order.  `pe`
abstracts the effect of `run_update_light_series` followed by the
`load_games` reload on the games rows (identity when nothing changed or in
dry-run); it is applied exactly when the series was polled. -/
def runLoop (pe : String → List Row → List Row) (dateStr : String) (now : Int) :
    List Row → List LSeries → List LSeries
  | _, [] => []
  | games, s :: rest =>
    let step := processSeries dateStr now games s
    step.1 :: runLoop pe dateStr now
      (if step.2 then pe s.seriesId games else games) rest

/-- The games rows in effect after the loop has processed the given prefix of
the series list. -/
def gamesAfter (pe : String → List Row → List Row) (dateStr : String) (now : Int) :
    List Row → List LSeries → List Row
  | games, [] => games
  | games, s :: rest =>
    gamesAfter pe dateStr now
      (if (processSeries dateStr now games s).2 then pe s.seriesId games else games) rest

theorem runLoop_length (pe : String → List Row → List Row) (dateStr : String)
    (now : Int) (games : List Row) (l : List LSeries) :
    (runLoop pe dateStr now games l).length = l.length := by
  induction l generalizing games with
  | nil => rfl
  | cons s rest ih => simp [runLoop, ih]

/-- C10.  Whenever the loop polls a series — it is not done-for-today, its
last-polled timestamp is absent or earlier than `now`, and it has an active
match in the games rows in effect at its iteration — the emitted entry has
`last_polled = now`, whatever `pe` (the polled snapshot's effect on the
Store) did. -/
theorem polled_series_gets_timestamp (pe : String → List Row → List Row)
    (dateStr : String) (now : Int) (games : List Row) (l : List LSeries)
    (i : Nat) (hi : i < l.length)
    (hdone : (l.get ⟨i, hi⟩).doneForToday = false)
    (hlp : (l.get ⟨i, hi⟩).lastPolled = none ∨
      ∃ lp, (l.get ⟨i, hi⟩).lastPolled = some lp ∧ lp < now)
    (hact : activeMatchExists dateStr now
      (gamesAfter pe dateStr now games (l.take i)) (l.get ⟨i, hi⟩).seriesId = true) :
    ((runLoop pe dateStr now games l).get
        ⟨i, by rw [runLoop_length]; exact hi⟩).lastPolled = some now := by
  induction l generalizing games i with
  | nil => exact absurd hi (by simp)
  | cons s rest ih =>
    cases i with
    | zero =>
      have hdone' : s.doneForToday = false := hdone
      have hlp' : s.lastPolled = none ∨ ∃ lp, s.lastPolled = some lp ∧ lp < now := hlp
      have hact' : activeMatchExists dateStr now games s.seriesId = true := hact
      have hskip : (match s.lastPolled with
          | some lp => decide (now ≤ lp)
          | none => false) = false := by
        rcases hlp' with h | ⟨lp, h, hlt⟩
        · rw [h]
        · rw [h]
          simp only [decide_eq_false_iff_not]
          omega
      show (processSeries dateStr now games s).1.lastPolled = some now
      simp only [processSeries, hdone', Bool.false_eq_true, if_false, hskip, hact', if_true]
    | succ i' =>
      have hi' : i' < rest.length := Nat.lt_of_succ_lt_succ hi
      have hdone' : (rest.get ⟨i', hi'⟩).doneForToday = false := hdone
      have hlp' : (rest.get ⟨i', hi'⟩).lastPolled = none ∨
          ∃ lp, (rest.get ⟨i', hi'⟩).lastPolled = some lp ∧ lp < now := hlp
      have hact' : activeMatchExists dateStr now
          (gamesAfter pe dateStr now
            (if (processSeries dateStr now games s).2 then pe s.seriesId games else games)
            (rest.take i'))
          (rest.get ⟨i', hi'⟩).seriesId = true := hact
      show ((runLoop pe dateStr now
          (if (processSeries dateStr now games s).2 then pe s.seriesId games else games)
          rest).get ⟨i', by rw [runLoop_length]; exact hi'⟩).lastPolled = some now
      exact ih (if (processSeries dateStr now games s).2 then pe s.seriesId games else games)
        i' hi' hdone' hlp' hact'

/-- A 2025-11-30 13:00 game of series 20000 that has started and is not
final, for the C10 witness. -/
def rowActive : Row :=
  { date := "2025-11-30", time := "13:00", series_name := "Division 1",
    link_to_series := "/ScheduleAndResults/Overview/20000",
    home_team := "Kiruna", away_team := "Boden", result := "1 - 0",
    result_link := "", arena := "ArenaN", status := "2nd period (05:00)|1-0",
    rest := [] }

/-- `now` for the C10 witness: 2025-11-30 14:00, in seconds. -/
def nowW : Int :=
  ((daysFromCivil 2025 11 30 * 1440 + 14 * 60 : Nat) : Int) * 60

/-- C10 witness: a never-polled, not-done series with an active match gets
`last_polled = now` after the loop runs, with `pe` the identity effect. -/
theorem polled_series_gets_timestamp_witness :
    ((runLoop (fun _ g => g) ("2025-11-30") nowW [rowActive]
        [⟨"20000", none, false⟩]).get ⟨0, by decide⟩).lastPolled = some nowW :=
  polled_series_gets_timestamp (fun _ g => g) ("2025-11-30") nowW [rowActive]
    [⟨"20000", none, false⟩] 0 (by decide) (by decide) (Or.inl rfl) (by decide)

/-! ## Poll Scheduler (`scripts/poll_control.py`)

`now` is in seconds; `timedelta(hours=2)` = 7200, `timedelta(minutes=30)` =
1800, `timedelta(hours=3)` = 10800.  The Python sets are modelled as the
lists of added elements (membership is what the claims are about). -/

/-- One series.csv entry as seen by `load_series` (poll_control.py:21-56),
keyed by the id extracted from `/Overview/<id>`. -/
structure SeriesInfo where
  live : Bool
  done : Bool
deriving DecidableEq

/-- One live_games.csv data row as aggregated by `load_live_games`
(poll_control.py:77-92): its series id and the computed `has_link`. -/
structure LiveLink where
  sid : String
  hasLink : Bool
deriving DecidableEq

/-- Dict lookup on the loaded series map. -/
def lookupSeries : List (String × SeriesInfo) → String → Option SeriesInfo
  | [], _ => none
  | (k, v) :: tl, sid => if k = sid then some v else lookupSeries tl sid

/-- `re.search(r"/Overview/([0-9]+)", link)` (poll_control.py:44, 138):
leftmost occurrence of `/Overview/` followed by at least one digit; the
captured group is the maximal digit run. -/
def extractSidFrom : List Char → Option String
  | [] => none
  | c :: rest =>
    if isPrefixL ("/Overview/").data (c :: rest) then
      let digits := ((c :: rest).drop 10).takeWhile Char.isDigit
      if digits ≠ [] then some (String.mk digits) else extractSidFrom rest
    else extractSidFrom rest

def extractSid (link : String) : Option String :=
  extractSidFrom link.data

/-- `parse_game_id` (poll_control.py:14-18):
`re.search(r"/Game/(Events|LineUps)/(\d+)", link)`, group 2, else `""`. -/
def parseGameIdFrom : List Char → Option String
  | [] => none
  | c :: rest =>
    if isPrefixL ("/Game/Events/").data (c :: rest) then
      let digits := ((c :: rest).drop 13).takeWhile Char.isDigit
      if digits ≠ [] then some (String.mk digits) else parseGameIdFrom rest
    else if isPrefixL ("/Game/LineUps/").data (c :: rest) then
      let digits := ((c :: rest).drop 14).takeWhile Char.isDigit
      if digits ≠ [] then some (String.mk digits) else parseGameIdFrom rest
    else parseGameIdFrom rest

def parseGameId (link : String) : String :=
  (parseGameIdFrom link.data).getD ""

/-- `datetime.strptime(f"{date} {time}", "%Y-%m-%d %H:%M")` in seconds
(poll_control.py:133). -/
def parseDTsec (dateStr timeStr : String) : Option Int :=
  match parseDateTimeMin (dateStr ++ (" ") ++ timeStr) with
  | some m => some ((m : Int) * 60)
  | none => none

/-- The common guard chain of the evaluation loop (poll_control.py:130-154):
parseable start time, extractable series id, series present in series.csv,
not DoneToday, and Live; yields the start (seconds) and the series id. -/
def rowGate (date : String) (seriesMap : List (String × SeriesInfo)) (g : Row) :
    Option (Int × String) :=
  match parseDTsec date g.time with
  | none => none
  | some start =>
    match extractSid g.link_to_series with
    | none => none
    | some sid =>
      match lookupSeries seriesMap sid with
      | none => none
      | some info =>
        if info.done then none
        else if !info.live then none
        else some (start, sid)

/-- GameLink-discovery emission for one row (poll_control.py:167-169). -/
def glEmit (date : String) (now : Int) (seriesMap : List (String × SeriesInfo))
    (liveLinks : List LiveLink) (g : Row) : Option String :=
  match rowGate date seriesMap g with
  | none => none
  | some (start, sid) =>
    if liveLinks.any (fun p => p.sid = sid && !p.hasLink) &&
        decide (start - 7200 ≤ now) && decide (now ≤ start + 1800) then
      some sid
    else none

/-- Lineup-poll emission for one row (poll_control.py:171-173). -/
def lineupEmit (date : String) (now : Int) (seriesMap : List (String × SeriesInfo))
    (g : Row) : Option String :=
  match rowGate date seriesMap g with
  | none => none
  | some (start, _) =>
    let gid := parseGameId g.result_link
    if gid ≠ "" && !(pyContains ("Waiting for 1st period") (pyStrip g.status)) &&
        decide (now < start) then
      some gid
    else none

/-- Live-poll emission for one row (poll_control.py:175-178). -/
def liveEmit (date : String) (now : Int) (seriesMap : List (String × SeriesInfo))
    (g : Row) : Option String :=
  match rowGate date seriesMap g with
  | none => none
  | some (start, _) =>
    let gid := parseGameId g.result_link
    if gid ≠ "" && !(pyContains ("Waiting for 1st period") (pyStrip g.status)) &&
        pyStrip g.status ≠ "Final Score" &&
        decide (start ≤ now) && decide (now ≤ start + 10800) then
      some gid
    else none

/-- Done emission for one row (poll_control.py:180-182); note the game id is
added without a non-emptiness check. -/
def doneEmit (date : String) (now : Int) (seriesMap : List (String × SeriesInfo))
    (g : Row) : Option String :=
  match rowGate date seriesMap g with
  | none => none
  | some (start, _) =>
    if pyStrip g.status = "Final Score" || decide (start + 10800 < now) then
      some (parseGameId g.result_link)
    else none

/-- `serie_games` of the DoneToday loop (poll_control.py:190-191): rows whose
series link contains `/Overview/<sid>`. -/
def serieGamesOf (sid : String) (games : List Row) : List Row :=
  games.filter (fun g =>
    containsL (("/Overview/").data ++ sid.data) g.link_to_series.data)

/-- The `all_done` loop (poll_control.py:196-203); `none` models the uncaught
`strptime` exception on an unparseable time. -/
def allDoneCheck (date : String) (now : Int) : List Row → Option Bool
  | [] => some true
  | g :: gs =>
    match parseDTsec date g.time with
    | none => none
    | some start =>
      if pyStrip g.status = "Final Score" || decide (start + 10800 < now) then
        allDoneCheck date now gs
      else some false

/-- The DoneToday update loop (poll_control.py:184-206). -/
def updateDone (date : String) (now : Int) (games : List Row) :
    List (String × SeriesInfo) → Option (List (String × SeriesInfo))
  | [] => some []
  | (sid, info) :: rest =>
    if info.done then
      (updateDone date now games rest).map (fun tl => (sid, info) :: tl)
    else
      let sg := serieGamesOf sid games
      if sg = [] then
        (updateDone date now games rest).map (fun tl => (sid, info) :: tl)
      else
        match allDoneCheck date now sg with
        | none => none
        | some ad =>
          (updateDone date now games rest).map
            (fun tl => (sid, { info with done := ad }) :: tl)

/-- The JSON object printed by `main` plus the rewritten series map. -/
structure PollOut where
  gl : List String
  lineup : List String
  live : List String
  doneMatches : List String
  seriesAfter : List (String × SeriesInfo)
deriving DecidableEq

/-- `main` of poll_control.py (lines 116-217): the four emitted sets (as
lists of added elements) and the updated series map; `none` when the
DoneToday loop crashes before any output is printed. -/
def pollControlMain (date : String) (now : Int)
    (seriesMap : List (String × SeriesInfo)) (liveLinks : List LiveLink)
    (games : List Row) : Option PollOut :=
  match updateDone date now games seriesMap with
  | none => none
  | some sm =>
    some { gl := games.filterMap (glEmit date now seriesMap liveLinks),
           lineup := games.filterMap (lineupEmit date now seriesMap),
           live := games.filterMap (liveEmit date now seriesMap),
           doneMatches := games.filterMap (doneEmit date now seriesMap),
           seriesAfter := sm }

theorem rowGate_parse {date : String} {seriesMap : List (String × SeriesInfo)}
    {g : Row} {start : Int} {sid : String}
    (h : rowGate date seriesMap g = some (start, sid)) :
    parseDTsec date g.time = some start := by
  cases hp : parseDTsec date g.time with
  | none =>
    simp only [rowGate, hp] at h
    exact absurd h (by simp)
  | some st =>
    simp only [rowGate, hp] at h
    cases he : extractSid g.link_to_series with
    | none =>
      simp only [he] at h
      exact absurd h (by simp)
    | some sid' =>
      simp only [he] at h
      cases hlk : lookupSeries seriesMap sid' with
      | none =>
        simp only [hlk] at h
        exact absurd h (by simp)
      | some info =>
        simp only [hlk] at h
        split at h
        · exact absurd h (by simp)
        · split at h
          · exact absurd h (by simp)
          · have h1 : st = start := congrArg Prod.fst (Option.some.inj h)
            rw [h1]

theorem lineupEmit_some {date : String} {now : Int}
    {seriesMap : List (String × SeriesInfo)} {g : Row} {x : String}
    (h : lineupEmit date now seriesMap g = some x) :
    ∃ start sid, rowGate date seriesMap g = some (start, sid) ∧
      parseGameId g.result_link = x ∧ x ≠ "" ∧ now < start := by
  cases hr : rowGate date seriesMap g with
  | none =>
    simp only [lineupEmit, hr] at h
    exact absurd h (by simp)
  | some p =>
    obtain ⟨start, sid⟩ := p
    simp only [lineupEmit, hr] at h
    split at h
    · next hc =>
      simp only [Bool.and_eq_true, decide_eq_true_eq] at hc
      obtain ⟨⟨hne, _⟩, hlt⟩ := hc
      have hx := Option.some.inj h
      exact ⟨start, sid, rfl, hx, hx ▸ hne, hlt⟩
    · exact absurd h (by simp)

theorem liveEmit_some {date : String} {now : Int}
    {seriesMap : List (String × SeriesInfo)} {g : Row} {x : String}
    (h : liveEmit date now seriesMap g = some x) :
    ∃ start sid, rowGate date seriesMap g = some (start, sid) ∧
      parseGameId g.result_link = x ∧ x ≠ "" ∧
      pyStrip g.status ≠ "Final Score" ∧ start ≤ now ∧ now ≤ start + 10800 := by
  cases hr : rowGate date seriesMap g with
  | none =>
    simp only [liveEmit, hr] at h
    exact absurd h (by simp)
  | some p =>
    obtain ⟨start, sid⟩ := p
    simp only [liveEmit, hr] at h
    split at h
    · next hc =>
      simp only [Bool.and_eq_true, decide_eq_true_eq] at hc
      obtain ⟨⟨⟨⟨hne, _⟩, hnf⟩, hge⟩, hle⟩ := hc
      have hx := Option.some.inj h
      exact ⟨start, sid, rfl, hx, hx ▸ hne, hnf, hge, hle⟩
    · exact absurd h (by simp)

theorem doneEmit_some {date : String} {now : Int}
    {seriesMap : List (String × SeriesInfo)} {g : Row} {x : String}
    (h : doneEmit date now seriesMap g = some x) :
    ∃ start sid, rowGate date seriesMap g = some (start, sid) ∧
      parseGameId g.result_link = x ∧
      (pyStrip g.status = "Final Score" ∨ start + 10800 < now) := by
  cases hr : rowGate date seriesMap g with
  | none =>
    simp only [doneEmit, hr] at h
    exact absurd h (by simp)
  | some p =>
    obtain ⟨start, sid⟩ := p
    simp only [doneEmit, hr] at h
    split at h
    · next hc =>
      simp only [Bool.or_eq_true, decide_eq_true_eq] at hc
      exact ⟨start, sid, rfl, Option.some.inj h, hc⟩
    · exact absurd h (by simp)

/-- Today's games for the C6 counterexample: a not-yet-started 20:00 match
whose status already says Final Score. -/
def gameC6 : Row :=
  { date := "2025-11-30", time := "20:00", series_name := "SHL",
    link_to_series := "/Overview/1", home_team := "A", away_team := "B",
    result := "", result_link := "/Game/Events/5", arena := "",
    status := "Final Score", rest := [] }

/-- `now` for the C6 counterexample: 2025-11-30 10:00, in seconds. -/
def nowC6 : Int :=
  ((daysFromCivil 2025 11 30 * 1440 + 10 * 60 : Nat) : Int) * 60

/-- Expected poll_control output for the C6 counterexample. -/
def outC6 : PollOut :=
  { gl := [], lineup := [("5")], live := [], doneMatches := [("5")],
    seriesAfter := [(("1"), { live := true, done := true })] }

/-- C6 (counterexample).  A fixture whose status is already "Final Score"
while its scheduled start is still in the future is put in BOTH the
lineup-refresh set and the newly-Done set (the lineup condition never checks
for terminal status), so the four emitted sets are not pairwise disjoint. -/
theorem poll_sets_counterexample :
    pollControlMain ("2025-11-30") nowC6 [(("1"), ⟨true, false⟩)] [] [gameC6] =
        some outC6 ∧
      ("5") ∈ outC6.lineup ∧ ("5") ∈ outC6.doneMatches := by
  refine ⟨by decide, by decide, by decide⟩

/-- C6 (amended).  If no two of today's rows yield the same non-empty game id
and no row carries a terminal "Final Score" status with a scheduled start
after `now`, then the three match sets emitted by the Poll Scheduler —
lineup refreshes, live refreshes, newly Done — are pairwise disjoint.  (The
game-link-discovery set contains series ids, a different identifier space
that the code never compares against the match ids.) -/
theorem poll_match_sets_disjoint (date : String) (now : Int)
    (seriesMap : List (String × SeriesInfo)) (liveLinks : List LiveLink)
    (games : List Row) (out : PollOut)
    (hout : pollControlMain date now seriesMap liveLinks games = some out)
    (hgid : ∀ g ∈ games, ∀ g' ∈ games, parseGameId g.result_link ≠ "" →
      parseGameId g.result_link = parseGameId g'.result_link → g = g')
    (hterm : ∀ g ∈ games, ∀ st : Int, parseDTsec date g.time = some st →
      pyStrip g.status = "Final Score" → st ≤ now) :
    (∀ x, x ∈ out.lineup → x ∉ out.live) ∧
      (∀ x, x ∈ out.lineup → x ∉ out.doneMatches) ∧
      (∀ x, x ∈ out.live → x ∉ out.doneMatches) := by
  have hfields : out.lineup = games.filterMap (lineupEmit date now seriesMap) ∧
      out.live = games.filterMap (liveEmit date now seriesMap) ∧
      out.doneMatches = games.filterMap (doneEmit date now seriesMap) := by
    cases hu : updateDone date now games seriesMap with
    | none =>
      simp only [pollControlMain, hu] at hout
      exact absurd hout (by simp)
    | some sm =>
      simp only [pollControlMain, hu] at hout
      obtain rfl := (Option.some.inj hout).symm
      exact ⟨rfl, rfl, rfl⟩
  obtain ⟨hL, hV, hD⟩ := hfields
  refine ⟨?_, ?_, ?_⟩
  · intro x hx₁ hx₂
    rw [hL] at hx₁
    rw [hV] at hx₂
    obtain ⟨g, hg, he⟩ := List.mem_filterMap.1 hx₁
    obtain ⟨g', hg', he'⟩ := List.mem_filterMap.1 hx₂
    obtain ⟨s1, i1, hr1, hid1, hne1, hlt⟩ := lineupEmit_some he
    obtain ⟨s2, i2, hr2, hid2, _, _, hge, _⟩ := liveEmit_some he'
    have hne : parseGameId g.result_link ≠ "" := by rw [hid1]; exact hne1
    have hgg : g = g' := hgid g hg g' hg' hne (by rw [hid1, hid2])
    subst hgg
    rw [hr1] at hr2
    have hs : s1 = s2 := congrArg Prod.fst (Option.some.inj hr2)
    omega
  · intro x hx₁ hx₂
    rw [hL] at hx₁
    rw [hD] at hx₂
    obtain ⟨g, hg, he⟩ := List.mem_filterMap.1 hx₁
    obtain ⟨g', hg', he'⟩ := List.mem_filterMap.1 hx₂
    obtain ⟨s1, i1, hr1, hid1, hne1, hlt⟩ := lineupEmit_some he
    obtain ⟨s2, i2, hr2, hid2, hcases⟩ := doneEmit_some he'
    have hne : parseGameId g.result_link ≠ "" := by rw [hid1]; exact hne1
    have hgg : g = g' := hgid g hg g' hg' hne (by rw [hid1, hid2])
    subst hgg
    rw [hr1] at hr2
    have hs : s1 = s2 := congrArg Prod.fst (Option.some.inj hr2)
    rcases hcases with hfin | hover
    · have := hterm g hg s1 (rowGate_parse hr1) hfin
      omega
    · omega
  · intro x hx₁ hx₂
    rw [hV] at hx₁
    rw [hD] at hx₂
    obtain ⟨g, hg, he⟩ := List.mem_filterMap.1 hx₁
    obtain ⟨g', hg', he'⟩ := List.mem_filterMap.1 hx₂
    obtain ⟨s1, i1, hr1, hid1, hne1, hnf, hge, hle⟩ := liveEmit_some he
    obtain ⟨s2, i2, hr2, hid2, hcases⟩ := doneEmit_some he'
    have hne : parseGameId g.result_link ≠ "" := by rw [hid1]; exact hne1
    have hgg : g = g' := hgid g hg g' hg' hne (by rw [hid1, hid2])
    subst hgg
    rw [hr1] at hr2
    have hs : s1 = s2 := congrArg Prod.fst (Option.some.inj hr2)
    rcases hcases with hfin | hover
    · exact hnf hfin
    · omega

/-- Today's game for the C6 witness: started at 13:00, not final. -/
def gameW6 : Row :=
  { date := "2025-11-30", time := "13:00", series_name := "SHL",
    link_to_series := "/Overview/2", home_team := "A", away_team := "B",
    result := "1 - 0", result_link := "/Game/Events/7", arena := "",
    status := "2nd period (05:00)", rest := [] }

/-- Expected poll_control output for the C6 witness. -/
def outW6 : PollOut :=
  { gl := [], lineup := [], live := [("7")], doneMatches := [],
    seriesAfter := [(("2"), ⟨true, false⟩)] }

/-- C6 witness: on an input satisfying the amended hypotheses (one row, one
game id, no terminal-before-start status), the match in the live set is not
in the Done set. -/
theorem poll_match_sets_disjoint_witness :
    ("7") ∉ outW6.doneMatches :=
  (poll_match_sets_disjoint ("2025-11-30") nowW [(("2"), ⟨true, false⟩)] []
      [gameW6] outW6 (by decide) (by decide) (by decide)).2.2 ("7") (by decide)

/-! ## Live Result Updater (`scripts/updateLightSeriesResults.py`)

The status-summary extraction of `extract_live_info_for_match`
(lines 370-487).  The function's `plain` (line 405-406) is the matched raw
window with HTML tags removed and whitespace normalised; line 445-447 applies
the same expression to the same window, so `_extract_period_or_ot_status`
runs on `plain` itself.  The three regular expressions are implemented
directly with Python `re` semantics (leftmost match, lazy `.*?` with
backtracking, `.` not matching a newline); each matcher returns the matched
text (`group(0)` / `group(1)`). -/

/-- `\(\d{2}:\d{2}\)` at the head of the text: the matched clock and the rest. -/
def matchClock : List Char → Option (List Char × List Char)
  | '(' :: a :: b :: ':' :: c :: d :: ')' :: rest =>
    if a.isDigit && b.isDigit && c.isDigit && d.isDigit then
      some ('(' :: a :: b :: ':' :: c :: d :: ')' :: [], rest)
    else none
  | _ => none

/-- `.*?\(\d{2}:\d{2}\)`: lazily skip non-newline characters until a clock
matches; returns (skipped, clock, rest). -/
def lazyUntilClock : List Char → Option (List Char × List Char × List Char)
  | [] => none
  | c :: cs =>
    match matchClock (c :: cs) with
    | some (ck, rest) => some ([], ck, rest)
    | none =>
      if c = '\n' then none
      else
        match lazyUntilClock cs with
        | some (sk, ck, rest) => some (c :: sk, ck, rest)
        | none => none

/-- `if isPrefixL pat l` then the rest of `l`. -/
def stripPre (pat l : List Char) : Option (List Char) :=
  if isPrefixL pat l then some (l.drop pat.length) else none

/-- `.*?\) for .*?\(\d{2}:\d{2}\)` with full backtracking over the lazy
`.*?`s: returns (matched text, rest). -/
def evTail : List Char → Option (List Char × List Char)
  | [] => none
  | c :: cs =>
    if c = '\n' then none
    else
      let cont : Option (List Char × List Char) :=
        match evTail cs with
        | some (m, rest) => some (c :: m, rest)
        | none => none
      if c = ')' then
        match stripPre ((" for ").data) cs with
        | some l₂ =>
          match lazyUntilClock l₂ with
          | some (sk, ck, rest) => some (')' :: (" for ").data ++ sk ++ ck, rest)
          | none => cont
        | none => cont
      else cont

/-- First alternative of the event regex:
`Powerplay \(.*?\) for .*?\(\d{2}:\d{2}\)`. -/
def alt1 (l : List Char) : Option (List Char) :=
  match stripPre (("Powerplay (").data) l with
  | none => none
  | some l₁ =>
    match evTail l₁ with
    | some (m, _) => some (("Powerplay (").data ++ m)
    | none => none

/-- Second alternative: `Four on Four \(\d{2}:\d{2}\)`. -/
def alt2 (l : List Char) : Option (List Char) :=
  match stripPre (("Four on Four ").data) l with
  | none => none
  | some l₁ =>
    match matchClock l₁ with
    | some (ck, _) => some (("Four on Four ").data ++ ck)
    | none => none

/-- `re.search`: try the anchored matcher at every start position, leftmost
first. -/
def searchTextAux (f : List Char → Option (List Char)) : List Char → Option (List Char)
  | [] => f []
  | c :: rest =>
    match f (c :: rest) with
    | some r => some r
    | none => searchTextAux f rest

/-- The transient-event search of step 3 (updateLightSeriesResults.py:463-469):
`re.search(r"(Powerplay \(.*?\) for .*?\(\d{2}:\d{2}\)|Four on Four \(\d{2}:\d{2}\))", after)`. -/
def searchEvent (l : List Char) : Option (List Char) :=
  searchTextAux (fun t =>
    match alt1 t with
    | some m => some m
    | none => alt2 t) l

/-- `(\d+(st|nd|rd|th))\s+period\s*\(\d{2}:\d{2}\)` anchored at the head
(updateLightSeriesResults.py:337).  The digit run, suffix, whitespace runs and
clock are each forced, so the match is deterministic. -/
def matchPeriodAt (l : List Char) : Option (List Char) :=
  let ds := l.takeWhile Char.isDigit
  if ds = [] then none
  else
    match l.dropWhile Char.isDigit with
    | s1 :: s2 :: r₂ =>
      if (s1 = 's' && s2 = 't') || (s1 = 'n' && s2 = 'd') ||
          (s1 = 'r' && s2 = 'd') || (s1 = 't' && s2 = 'h') then
        let ws1 := r₂.takeWhile isWs
        if ws1 = [] then none
        else
          match stripPre (("period").data) (r₂.dropWhile isWs) with
          | none => none
          | some r₄ =>
            let ws2 := r₄.takeWhile isWs
            match matchClock (r₄.dropWhile isWs) with
            | some (ck, _) =>
              some (ds ++ s1 :: s2 :: ws1 ++ ("period").data ++ ws2 ++ ck)
            | none => none
      else none
    | _ => none

/-- `Overtime(?:\s+(\d+))?\s*\(\d{2}:\d{2}\)` anchored at the head
(updateLightSeriesResults.py:342): the optional numbered branch is tried
first, then the plain branch. -/
def matchOTAt (l : List Char) : Option (List Char) :=
  match stripPre (("Overtime").data) l with
  | none => none
  | some r₁ =>
    let b1 : Option (List Char) :=
      let ws1 := r₁.takeWhile isWs
      if ws1 = [] then none
      else
        let r₂ := r₁.dropWhile isWs
        let ds := r₂.takeWhile Char.isDigit
        if ds = [] then none
        else
          let r₃ := r₂.dropWhile Char.isDigit
          let ws2 := r₃.takeWhile isWs
          match matchClock (r₃.dropWhile isWs) with
          | some (ck, _) => some (("Overtime").data ++ ws1 ++ ds ++ ws2 ++ ck)
          | none => none
    match b1 with
    | some m => some m
    | none =>
      let ws := r₁.takeWhile isWs
      match matchClock (r₁.dropWhile isWs) with
      | some (ck, _) => some (("Overtime").data ++ ws ++ ck)
      | none => none

def searchPeriod (l : List Char) : Option (List Char) :=
  searchTextAux matchPeriodAt l

def searchOT (l : List Char) : Option (List Char) :=
  searchTextAux matchOTAt l

/-- `_extract_period_or_ot_status` (updateLightSeriesResults.py:326-347). -/
def extractPeriodOrOt (plain : List Char) : Option (List Char) :=
  if plain = [] then none
  else
    match searchPeriod plain with
    | some m => some m
    | none => searchOT plain

/-- `_STATUS_MARKERS` (updateLightSeriesResults.py:274-286). -/
def statusMarkers : List (List Char) :=
  [("1st period").data, ("2nd period").data, ("3rd period").data,
   ("Final Score").data, ("Game Finished").data,
   ("Waiting for 1st period").data, ("Waiting for").data,
   ("Overtime").data, ("OT").data, ("GWS").data, ("Shootout").data,
   ("Powerplay").data, ("Four on Four").data]

/-- One step of the best-index scan of `_clean_summary`
(updateLightSeriesResults.py:313-318): keep the smaller found index. -/
def optMinStep (best : Option Nat) (found : Option Nat) : Option Nat :=
  match found with
  | none => best
  | some i =>
    match best with
    | none => some i
    | some b => if i < b then some i else some b

/-- The minimal case-insensitive marker index in `lower`. -/
def bestMarkerIdx (lower : List Char) : Option Nat :=
  (statusMarkers.map (fun m => findSub (lowerL m) lower)).foldl optMinStep none

/-- `_clean_summary` (updateLightSeriesResults.py:298-323). -/
def cleanSummary (summary : List Char) : List Char :=
  if summary = [] then []
  else
    let s := stripL summary
    match bestMarkerIdx (lowerL s) with
    | some b => stripL (s.drop b)
    | none => s

/-- Python `\w` (ASCII part). -/
def isWordChar (c : Char) : Bool :=
  c.isAlphanum || c = '_'

def boundaryAfter (s : List Char) (n : Nat) : Bool :=
  match s.drop n with
  | [] => true
  | c :: _ => !(isWordChar c)

/-- `re.match(r"^(Powerplay|Four on Four)\b", summary)`
(updateLightSeriesResults.py:478). -/
def startsEventMarker (s : List Char) : Bool :=
  (isPrefixL (("Powerplay").data) s && boundaryAfter s 9) ||
    (isPrefixL (("Four on Four").data) s && boundaryAfter s 12)

/-- Python truthiness of the summary variable (`None` and `""` are falsy). -/
def pyTruthy : Option (List Char) → Bool
  | none => false
  | some s => s ≠ []

/-- The summary computation of `extract_live_info_for_match`
(updateLightSeriesResults.py:442-485) as a function of the bounded post-away
segment `afterTxt` and the plain window text: terminal markers, then waiting
markers, then the transient-event regex, then `_clean_summary`, and finally
the period/overtime status always supersedes an event-shaped summary. -/
def computeSummaryCore (afterTxt plain : List Char) : Option (List Char) :=
  let periodOrOt := extractPeriodOrOt plain
  let step1 : Option (List Char) :=
    if containsL (("Final Score").data) afterTxt then some (("Final Score").data)
    else if containsL (("Game Finished").data) afterTxt then some (("Game Finished").data)
    else none
  let step2 : Option (List Char) :=
    match step1 with
    | some s => some s
    | none =>
      if containsL (("Waiting for 1st period").data) afterTxt then
        some (("Waiting for 1st period").data)
      else if containsL (("Waiting for").data) afterTxt then
        some (("Waiting for").data)
      else none
  let step3 : Option (List Char) :=
    match step2 with
    | some s => some s
    | none => searchEvent afterTxt
  let cleaned : Option (List Char) :=
    match step3 with
    | some s => if s ≠ [] then some (cleanSummary s) else some s
    | none => none
  match periodOrOt with
  | some t =>
    if pyTruthy cleaned && startsEventMarker (cleaned.getD []) then some t
    else if !(pyTruthy cleaned) then some t
    else cleaned
  | none => cleaned

/-- `after` (updateLightSeriesResults.py:417-419): the 220-character slice of
`plain` following the away-team occurrence, stripped. -/
def afterSlice (plain away : List Char) (aIdx : Nat) : List Char :=
  stripL ((plain.drop (aIdx + away.length)).take 220)

/-- The status summary produced by `extract_live_info_for_match` for a
(home, away) pair: locate home in the plain window, then away after it
(lines 412-415), slice `after`, and run the summary pipeline. -/
def summaryForMatch (plain home away : List Char) : Option (List Char) :=
  match findSub home plain with
  | none => none
  | some h =>
    match findSubFrom away plain (h + home.length) with
    | none => none
    | some a => computeSummaryCore (afterSlice plain away a) plain

/-! ### Structure of event-regex matches -/

theorem getLast?_append_right {α : Type} (l₁ : List α) {l₂ : List α}
    (h : l₂ ≠ []) : (l₁ ++ l₂).getLast? = l₂.getLast? := by
  induction l₁ with
  | nil => rfl
  | cons a tl ih =>
    rw [List.cons_append]
    cases htl : tl ++ l₂ with
    | nil => exact absurd (List.append_eq_nil.1 htl).2 h
    | cons x xs =>
      rw [List.getLast?_cons_cons, ← htl, ih]

theorem matchClock_shape {l : List Char} {ck rest : List Char}
    (h : matchClock l = some (ck, rest)) : ck ≠ [] ∧ ck.getLast? = some ')' := by
  unfold matchClock at h
  split at h
  · split at h
    · have hck : ck = _ := (congrArg Prod.fst (Option.some.inj h)).symm
      rw [hck]
      exact ⟨by simp, rfl⟩
    · exact absurd h (by simp)
  · exact absurd h (by simp)

theorem lazyUntilClock_shape {l sk ck rest : List Char}
    (h : lazyUntilClock l = some (sk, ck, rest)) : ck ≠ [] ∧ ck.getLast? = some ')' := by
  induction l generalizing sk ck rest with
  | nil => exact absurd h (by simp [lazyUntilClock])
  | cons c cs ih =>
    rw [lazyUntilClock] at h
    cases hm : matchClock (c :: cs) with
    | some p =>
      obtain ⟨ck', rest'⟩ := p
      rw [hm] at h
      dsimp only at h
      have h2 : ck' = ck := congrArg (fun q => q.2.1) (Option.some.inj h)
      exact h2 ▸ matchClock_shape hm
    | none =>
      rw [hm] at h
      dsimp only at h
      split at h
      · exact absurd h (by simp)
      · cases hz : lazyUntilClock cs with
        | some q =>
          obtain ⟨sk', ck', rest'⟩ := q
          rw [hz] at h
          dsimp only at h
          have h2 : ck' = ck := congrArg (fun q => q.2.1) (Option.some.inj h)
          exact h2 ▸ ih hz
        | none =>
          rw [hz] at h
          exact absurd h (by simp)

theorem evTail_shape {l m rest : List Char}
    (h : evTail l = some (m, rest)) : m ≠ [] ∧ m.getLast? = some ')' := by
  induction l generalizing m rest with
  | nil => exact absurd h (by simp [evTail])
  | cons c cs ih =>
    rw [evTail] at h
    dsimp only at h
    have hcont : ∀ m' rest',
        (match evTail cs with
         | some (m'', r') => some (c :: m'', r')
         | none => none) = some (m', rest') →
        m' ≠ [] ∧ m'.getLast? = some ')' := by
      intro m' rest' hc
      cases he : evTail cs with
      | some p =>
        obtain ⟨m'', r''⟩ := p
        rw [he] at hc
        dsimp only at hc
        have h1 : c :: m'' = m' := congrArg Prod.fst (Option.some.inj hc)
        obtain ⟨hm1, hm2⟩ := ih he
        refine ⟨by rw [← h1]; simp, ?_⟩
        rw [← h1]
        rw [show (c :: m'' : List Char) = [c] ++ m'' from rfl]
        rw [getLast?_append_right [c] hm1]
        exact hm2
      | none =>
        rw [he] at hc
        exact absurd hc (by simp)
    by_cases hn : c = '\n'
    · rw [if_pos hn] at h
      exact absurd h (by simp)
    · rw [if_neg hn] at h
      by_cases hp : c = ')'
      · rw [if_pos hp] at h
        cases hs : stripPre ((" for ").data) cs with
        | some l₂ =>
          rw [hs] at h
          dsimp only at h
          cases hz : lazyUntilClock l₂ with
          | some q =>
            obtain ⟨sk, ck, rest'⟩ := q
            rw [hz] at h
            dsimp only at h
            have h1 : ')' :: (" for ").data ++ sk ++ ck = m :=
              congrArg Prod.fst (Option.some.inj h)
            obtain ⟨hck1, hck2⟩ := lazyUntilClock_shape hz
            refine ⟨by rw [← h1]; simp, ?_⟩
            rw [← h1]
            rw [show (')' :: (" for ").data ++ sk ++ ck : List Char) =
              (')' :: ((" for ").data ++ sk)) ++ ck by simp]
            rw [getLast?_append_right _ hck1]
            exact hck2
          | none =>
            rw [hz] at h
            exact hcont m rest h
        | none =>
          rw [hs] at h
          exact hcont m rest h
      · rw [if_neg hp] at h
        exact hcont m rest h

theorem alt1_shape {l e : List Char} (h : alt1 l = some e) :
    (∃ tail, e = (("Powerplay (").data) ++ tail) ∧ e.getLast? = some ')' := by
  unfold alt1 at h
  cases hs : stripPre (("Powerplay (").data) l with
  | none => rw [hs] at h; exact absurd h (by simp)
  | some l₁ =>
    rw [hs] at h
    simp only at h
    cases he : evTail l₁ with
    | some p =>
      obtain ⟨m, r⟩ := p
      rw [he] at h
      simp only at h
      obtain ⟨hm1, hm2⟩ := evTail_shape he
      have hme := Option.some.inj h
      refine ⟨⟨m, hme.symm⟩, ?_⟩
      rw [← hme, getLast?_append_right _ hm1]
      exact hm2
    | none => rw [he] at h; exact absurd h (by simp)

theorem alt2_shape {l e : List Char} (h : alt2 l = some e) :
    (∃ tail, e = (("Four on Four ").data) ++ tail) ∧ e.getLast? = some ')' := by
  unfold alt2 at h
  cases hs : stripPre (("Four on Four ").data) l with
  | none => rw [hs] at h; exact absurd h (by simp)
  | some l₁ =>
    rw [hs] at h
    simp only at h
    cases hc : matchClock l₁ with
    | some p =>
      obtain ⟨ck, r⟩ := p
      rw [hc] at h
      simp only at h
      obtain ⟨hck1, hck2⟩ := matchClock_shape hc
      have hme := Option.some.inj h
      refine ⟨⟨ck, hme.symm⟩, ?_⟩
      rw [← hme, getLast?_append_right _ hck1]
      exact hck2
    | none => rw [hc] at h; exact absurd h (by simp)

theorem searchTextAux_some {f : List Char → Option (List Char)} {l r : List Char}
    (h : searchTextAux f l = some r) : ∃ t, f t = some r := by
  induction l with
  | nil => exact ⟨[], h⟩
  | cons c cs ih =>
    rw [searchTextAux] at h
    cases hf : f (c :: cs) with
    | some r' =>
      rw [hf] at h
      exact ⟨c :: cs, hf.trans (congrArg some (Option.some.inj h))⟩
    | none =>
      rw [hf] at h
      exact ih h

theorem searchEvent_shape {l e : List Char} (h : searchEvent l = some e) :
    ((∃ tail, e = (("Powerplay (").data) ++ tail) ∨
      (∃ tail, e = (("Four on Four ").data) ++ tail)) ∧ e.getLast? = some ')' := by
  obtain ⟨t, ht⟩ := searchTextAux_some h
  cases h1 : alt1 t with
  | some m =>
    rw [h1] at ht
    simp only at ht
    obtain ⟨hp, hl⟩ := alt1_shape (h1.trans (congrArg some (Option.some.inj ht)))
    exact ⟨Or.inl hp, hl⟩
  | none =>
    rw [h1] at ht
    simp only at ht
    obtain ⟨hp, hl⟩ := alt2_shape ht
    exact ⟨Or.inr hp, hl⟩

/-! ### `_clean_summary` fixes event-shaped summaries -/

theorem stripL_eq_self {l : List Char}
    (h1 : ∀ c, l.head? = some c → isWs c = false)
    (h2 : ∀ c, l.getLast? = some c → isWs c = false) : stripL l = l := by
  cases l with
  | nil => rfl
  | cons c rest =>
    rw [stripL]
    have hc : isWs c = false := h1 c rfl
    have h₀ : List.dropWhile isWs (c :: rest) = c :: rest := by simp [hc]
    rw [h₀, dropTrailing]
    cases hrev : (c :: rest).reverse with
    | nil => exact absurd hrev (by simp)
    | cons d tl =>
      have hd : isWs d = false := by
        apply h2
        rw [← List.head?_reverse, hrev]
        rfl
      have h₁ : List.dropWhile isWs (d :: tl) = d :: tl := by simp [hd]
      rw [h₁, ← hrev, List.reverse_reverse]

theorem foldl_optMinStep_some_zero (xs : List (Option Nat)) :
    xs.foldl optMinStep (some 0) = some 0 := by
  induction xs with
  | nil => rfl
  | cons x tl ih =>
    rw [List.foldl_cons]
    have hx : optMinStep (some 0) x = some 0 := by
      cases x with
      | none => rfl
      | some i =>
        rw [optMinStep]
        rw [if_neg (by omega)]
    rw [hx, ih]

theorem optMinStep_absorb_zero (acc : Option Nat) : optMinStep acc (some 0) = some 0 := by
  cases acc with
  | none => rfl
  | some b =>
    rw [optMinStep]
    by_cases hb : 0 < b
    · rw [if_pos hb]
    · rw [if_neg hb]
      have hb0 : b = 0 := by omega
      rw [hb0]

theorem foldl_optMinStep_zero_mem {xs : List (Option Nat)} (acc : Option Nat)
    (h : some 0 ∈ xs) : xs.foldl optMinStep acc = some 0 := by
  induction xs generalizing acc with
  | nil => simp at h
  | cons x tl ih =>
    rw [List.foldl_cons]
    rcases List.mem_cons.1 h with h' | h'
    · rw [← h', optMinStep_absorb_zero]
      exact foldl_optMinStep_some_zero tl
    · exact ih _ h'

theorem bestMarkerIdx_zero {lower m : List Char} (hm : m ∈ statusMarkers)
    (h : findSub (lowerL m) lower = some 0) : bestMarkerIdx lower = some 0 :=
  foldl_optMinStep_zero_mem none (List.mem_map.2 ⟨m, hm, h⟩)

theorem findSub_zero_of_headMatch {p l : List Char} (h : isPrefixL p l = true) :
    findSub p l = some 0 := by
  cases l with
  | nil => rw [findSub, findSubAux, if_pos h]
  | cons c cs => rw [findSub, findSubAux, if_pos h]

theorem isPrefixL_append (p r : List Char) : isPrefixL p (p ++ r) = true := by
  simp only [isPrefixL, List.isPrefixOf_iff_prefix]
  exact List.prefix_append p r

theorem isPrefixL_lower {p e : List Char} (h : isPrefixL p e = true) :
    isPrefixL (lowerL p) (lowerL e) = true := by
  simp only [isPrefixL, List.isPrefixOf_iff_prefix] at h ⊢
  exact h.map Char.toLower

/-- An event-regex match is returned unchanged by `_clean_summary` and is
recognised by the `^(Powerplay|Four on Four)\b` check. -/
theorem searchEvent_props {l e : List Char} (h : searchEvent l = some e) :
    cleanSummary e = e ∧ startsEventMarker e = true ∧ e ≠ [] := by
  obtain ⟨hshape, hlast⟩ := searchEvent_shape h
  have hlast' : ∀ c, e.getLast? = some c → isWs c = false := by
    intro c hc
    rw [hlast] at hc
    rw [← Option.some.inj hc]
    decide
  rcases hshape with ⟨tail, he⟩ | ⟨tail, he⟩
  · have hne : e ≠ [] := by rw [he]; simp
    have hhead : ∀ c, e.head? = some c → isWs c = false := by
      intro c hc
      rw [he] at hc
      have hcp : c = 'P' := (Option.some.inj hc).symm
      rw [hcp]
      decide
    have hstrip : stripL e = e := stripL_eq_self hhead hlast'
    have hpre : isPrefixL (("Powerplay").data) e = true := by
      rw [he, show (("Powerplay (").data : List Char) =
        ("Powerplay").data ++ (" (").data from rfl, List.append_assoc]
      exact isPrefixL_append _ _
    have hbest : bestMarkerIdx (lowerL e) = some 0 :=
      bestMarkerIdx_zero (by decide) (findSub_zero_of_headMatch (isPrefixL_lower hpre))
    have hclean : cleanSummary e = e := by
      rw [cleanSummary, if_neg hne]
      simp only [hstrip, hbest, List.drop_zero]
    have hstarts : startsEventMarker e = true := by
      rw [startsEventMarker, Bool.or_eq_true]
      left
      rw [Bool.and_eq_true]
      refine ⟨hpre, ?_⟩
      rw [boundaryAfter]
      have hdrop : e.drop 9 = ' ' :: ('(' :: tail) := by
        rw [he]
        rfl
      rw [hdrop]
      show (!(isWordChar ' ')) = true
      decide
    exact ⟨hclean, hstarts, hne⟩
  · have hne : e ≠ [] := by rw [he]; simp
    have hhead : ∀ c, e.head? = some c → isWs c = false := by
      intro c hc
      rw [he] at hc
      have hcp : c = 'F' := (Option.some.inj hc).symm
      rw [hcp]
      decide
    have hstrip : stripL e = e := stripL_eq_self hhead hlast'
    have hpre : isPrefixL (("Four on Four").data) e = true := by
      rw [he, show (("Four on Four ").data : List Char) =
        ("Four on Four").data ++ (" ").data from rfl, List.append_assoc]
      exact isPrefixL_append _ _
    have hbest : bestMarkerIdx (lowerL e) = some 0 :=
      bestMarkerIdx_zero (by decide) (findSub_zero_of_headMatch (isPrefixL_lower hpre))
    have hclean : cleanSummary e = e := by
      rw [cleanSummary, if_neg hne]
      simp only [hstrip, hbest, List.drop_zero]
    have hstarts : startsEventMarker e = true := by
      rw [startsEventMarker, Bool.or_eq_true]
      right
      rw [Bool.and_eq_true]
      refine ⟨hpre, ?_⟩
      rw [boundaryAfter]
      have hdrop : e.drop 12 = ' ' :: tail := by
        rw [he]
        rfl
      rw [hdrop]
      show (!(isWordChar ' ')) = true
      decide
    exact ⟨hclean, hstarts, hne⟩

/-- C8 (amended).  If the plain matched window for a (home, away) pair
contains a timed period/overtime marker (and, per the claim, a transient
event marker), and the bounded post-away segment contains no terminal
("Final Score" / "Game Finished") and no waiting marker, then the extracted
status summary is exactly the timed marker — never the transient event
marker. -/
theorem timed_marker_supersedes_transient (plain home away : List Char)
    (hIdx aIdx : Nat) (t : List Char)
    (hh : findSub home plain = some hIdx)
    (ha : findSubFrom away plain (hIdx + home.length) = some aIdx)
    (ht : extractPeriodOrOt plain = some t)
    (_hev : searchEvent plain ≠ none)
    (hnf : containsL (("Final Score").data) (afterSlice plain away aIdx) = false)
    (hng : containsL (("Game Finished").data) (afterSlice plain away aIdx) = false)
    (hnw1 : containsL (("Waiting for 1st period").data) (afterSlice plain away aIdx) = false)
    (hnw2 : containsL (("Waiting for").data) (afterSlice plain away aIdx) = false) :
    summaryForMatch plain home away = some t := by
  rw [summaryForMatch, hh]
  dsimp only
  rw [ha]
  dsimp only
  rw [computeSummaryCore]
  dsimp only
  rw [ht, hnf, hng, hnw1, hnw2]
  simp only [Bool.false_eq_true, if_false]
  cases hse : searchEvent (afterSlice plain away aIdx) with
  | none => simp [pyTruthy]
  | some e =>
    obtain ⟨hclean, hstarts, hne⟩ := searchEvent_props hse
    dsimp only
    rw [if_pos hne, hclean]
    have htr : pyTruthy (some e) = true := by simp [pyTruthy, hne]
    simp [htr, hstarts]

/-- A plain window containing a terminal, a timed and a transient marker. -/
def plainC8 : List Char :=
  ("TeamA 2 - 1 TeamB Final Score 3rd period (10:54) Powerplay (5 on 4) for TeamA (04:54)").data

/-- C8 (counterexample).  The window `plainC8` contains both the timed marker
`3rd period (10:54)` and the transient marker
`Powerplay (5 on 4) for TeamA (04:54)`, yet the extracted status summary is
`Final Score` — the terminal marker, not the timed marker — refuting "the
matched window containing both a timed and a transient marker always yields
the timed marker". -/
theorem timed_marker_counterexample :
    extractPeriodOrOt plainC8 = some (("3rd period (10:54)").data) ∧
      searchEvent plainC8 = some (("Powerplay (5 on 4) for TeamA (04:54)").data) ∧
      summaryForMatch plainC8 (("TeamA").data) (("TeamB").data) =
        some (("Final Score").data) ∧
      (("Final Score").data : List Char) ≠ ("3rd period (10:54)").data ∧
      (("Final Score").data : List Char) ≠ ("Powerplay (5 on 4) for TeamA (04:54)").data := by
  refine ⟨by decide, by decide, by decide, by decide, by decide⟩

/-- A plain window with a timed and a transient marker but no terminal or
waiting marker. -/
def plainW8 : List Char :=
  ("TeamA 2 - 1 TeamB 3rd period (10:54) Powerplay (5 on 4) for TeamB (04:54)").data

/-- C8 witness: on `plainW8`, the amended theorem applies and yields the
timed marker as the status summary. -/
theorem timed_marker_supersedes_transient_witness :
    summaryForMatch plainW8 (("TeamA").data) (("TeamB").data) =
      some (("3rd period (10:54)").data) :=
  timed_marker_supersedes_transient plainW8 (("TeamA").data) (("TeamB").data) 0 12
    (("3rd period (10:54)").data) (by decide) (by decide) (by decide)
    (by decide) (by decide) (by decide) (by decide) (by decide)

end Hockey
